import Mathlib

/-!
Verification of the libptp PTP transaction engine and wire-format codec.

The definitions below are a shallow embedding of the Rust sources:
`src/read.rs` (wire reader), `src/data_type.rs` (datatype codec),
`src/error.rs` (error model), `src/lib.rs` (dataset decoders) and
`src/camera.rs` (container framing and transaction engine).

Modelling conventions:
* a byte buffer is a `List Nat` (each element is one byte read off the USB
  bulk endpoint);
* a cursor-based reader (`std::io::Cursor` plus the `PtpRead` trait) is a
  function `Bytes → Nat → Except Error (α × Nat)` taking the buffer and the
  current position and returning the value together with the new position;
* machine integers are `Nat` (unsigned) or `Int` (signed); wrapping casts
  such as `len as u32` are written with an explicit `% 2^32`;
* fallible Rust code returning `Result<_, Error>` becomes `Except Error _`.
-/

namespace Ptp

abbrev Bytes := List Nat

/-- `std::io::ErrorKind` restricted to what the cursor reads can produce:
reading past the end of a `Cursor` yields `UnexpectedEof`. -/
inductive IoErrorKind where
  | unexpectedEof
  | otherKind
deriving DecidableEq, Repr

/-- The unified error type of `src/error.rs` (`enum Error`).  The `Usb` and
`Io` payloads (`rusb::Error`, `io::Error`) are reduced to what the claims
need: the `io::ErrorKind` for `Io`, nothing for `Usb`. -/
inductive Error where
  | Response (code : Nat)
  | Malformed (msg : String)
  | Usb
  | Io (k : IoErrorKind)
deriving DecidableEq, Repr

/-- `impl From<io::Error> for Error` in `src/error.rs`: `UnexpectedEof` is
remapped to `Malformed("Unexpected end of message")`, everything else is
wrapped in `Error::Io`. -/
def Error.fromIo : IoErrorKind → Error
  | .unexpectedEof => .Malformed "Unexpected end of message"
  | k => .Io k

/-- A byte-cursor reader: buffer and position in, value and new position out. -/
def Reader (α : Type) : Type := Bytes → Nat → Except Error (α × Nat)

/-- Reader that consumes nothing (the final struct-literal step of a
sequential decode). -/
def rpure (a : α) : Reader α := fun _ p => .ok (a, p)

/-- Sequencing of reads; models the `?`-chains of the Rust decoders. -/
def rbind (r : Reader α) (f : α → Reader β) : Reader β := fun b p =>
  match r b p with
  | .ok (v, q) => f v b q
  | .error e => .error e

/-- One byte off the cursor; at end of buffer the `io` EOF error is remapped
through `Error.fromIo` exactly as every `?` in `src/read.rs` does. -/
def read_u8 : Reader Nat := fun b p =>
  if h : p < b.length then .ok (b.get ⟨p, h⟩, p + 1)
  else .error (Error.fromIo .unexpectedEof)

/-- `byteorder`'s little-endian unsigned read of `w` bytes, the common core
of `read_u16::<LittleEndian>` … `read_u128::<LittleEndian>`. -/
def readUnsignedLE : Nat → Reader Nat
  | 0 => rpure 0
  | w + 1 =>
    rbind read_u8 fun x =>
    rbind (readUnsignedLE w) fun y =>
    rpure (x + 256 * y)

/-- Two's-complement reinterpretation of a `w`-byte unsigned value, as done
by `byteorder`'s signed reads. -/
def toSigned (w : Nat) (n : Nat) : Int :=
  if n < 2 ^ (8 * w - 1) then (n : Int) else (n : Int) - 2 ^ (8 * w)

/-- `byteorder`'s little-endian signed read of `w` bytes. -/
def readSignedLE (w : Nat) : Reader Int :=
  rbind (readUnsignedLE w) fun n => rpure (toSigned w n)

def read_ptp_u8 : Reader Nat := readUnsignedLE 1
def read_ptp_u16 : Reader Nat := readUnsignedLE 2
def read_ptp_u32 : Reader Nat := readUnsignedLE 4
def read_ptp_u64 : Reader Nat := readUnsignedLE 8
def read_ptp_u128 : Reader Nat := readUnsignedLE 16
def read_ptp_i8 : Reader Int := readSignedLE 1
def read_ptp_i16 : Reader Int := readSignedLE 2
def read_ptp_i32 : Reader Int := readSignedLE 4
def read_ptp_i64 : Reader Int := readSignedLE 8
def read_ptp_i128 : Reader Int := readSignedLE 16

/-- `(0..len).map(|_| func(self)).collect()`: `n` sequential element reads. -/
def readCount : Nat → Reader α → Reader (List α)
  | 0, _ => rpure []
  | n + 1, f =>
    rbind f fun v =>
    rbind (readCount n f) fun vs =>
    rpure (v :: vs)

/-- `PtpRead::read_ptp_vec`: u32 element count, then that many reads. -/
def read_ptp_vec (f : Reader α) : Reader (List α) :=
  rbind (readUnsignedLE 4) fun len => readCount len f

def read_ptp_u8_vec : Reader (List Nat) := read_ptp_vec read_ptp_u8
def read_ptp_u16_vec : Reader (List Nat) := read_ptp_vec read_ptp_u16
def read_ptp_u32_vec : Reader (List Nat) := read_ptp_vec read_ptp_u32
def read_ptp_u64_vec : Reader (List Nat) := read_ptp_vec read_ptp_u64
def read_ptp_u128_vec : Reader (List Nat) := read_ptp_vec read_ptp_u128
def read_ptp_i8_vec : Reader (List Int) := read_ptp_vec read_ptp_i8
def read_ptp_i16_vec : Reader (List Int) := read_ptp_vec read_ptp_i16
def read_ptp_i32_vec : Reader (List Int) := read_ptp_vec read_ptp_i32
def read_ptp_i64_vec : Reader (List Int) := read_ptp_vec read_ptp_i64
def read_ptp_i128_vec : Reader (List Int) := read_ptp_vec read_ptp_i128

/-- UTF-16 code units of one scalar value, as produced by Rust's
`str::encode_utf16` (surrogate pair above the BMP). -/
def charUtf16 (c : Char) : List Nat :=
  let v := c.toNat
  if v < 0x10000 then [v]
  else [0xD800 + (v - 0x10000) / 0x400, 0xDC00 + (v - 0x10000) % 0x400]

def encodeUtf16List : List Char → List Nat
  | [] => []
  | c :: cs => charUtf16 c ++ encodeUtf16List cs

/-- `String::from_utf16`: rejects unpaired or out-of-order surrogates. -/
def utf16DecodeChars : List Nat → Option (List Char)
  | [] => some []
  | u :: rest =>
    if 0xD800 ≤ u ∧ u ≤ 0xDBFF then
      match rest with
      | v :: rest2 =>
        if 0xDC00 ≤ v ∧ v ≤ 0xDFFF then
          match utf16DecodeChars rest2 with
          | some cs => some (Char.ofNat (0x10000 + (u - 0xD800) * 0x400 + (v - 0xDC00)) :: cs)
          | none => none
        else none
      | [] => none
    else if 0xDC00 ≤ u ∧ u ≤ 0xDFFF then none
    else
      match utf16DecodeChars rest with
      | some cs => some (Char.ofNat u :: cs)
      | none => none

/-- The `Malformed` message of `read_ptp_str` on invalid UTF-16 (Rust's
`{:?}` rendering of a `Vec<u16>` agrees with `toString` on `List Nat`). -/
def invalidUtf16Msg (data : List Nat) : String :=
  "Invalid UTF16 data: " ++ toString data

/-- The final `String::from_utf16(&data).map_err(…)` step of
`read_ptp_str`: consumes no bytes, fails `Malformed` on invalid UTF-16. -/
def utf16Step (data : List Nat) : Reader String := fun _ q =>
  match utf16DecodeChars data with
  | some cs => .ok (String.mk cs, q)
  | none => .error (.Malformed (invalidUtf16Msg data))

/-- `PtpRead::read_ptp_str`: u8 length prefix `len`; if positive, `len - 1`
UTF-16 code units, one consumed-but-unvalidated trailing u16, then UTF-16
decoding; `len == 0` yields the empty string. -/
def read_ptp_str : Reader String :=
  rbind read_u8 fun len =>
    if len > 0 then
      rbind (readCount (len - 1) (readUnsignedLE 2)) fun data =>
      rbind (readUnsignedLE 2) fun _ =>
      utf16Step data
    else rpure ""

/-- The `Malformed` message of `expect_end`. -/
def expectEndMsg (len pos : Nat) : String :=
  s!"Response {len} bytes, expected {pos} bytes"

/-- `PtpRead::expect_end` for `Cursor`: position must equal buffer length. -/
def expect_end : Reader Unit := fun b p =>
  if b.length = p then .ok ((), p)
  else .error (.Malformed (expectEndMsg b.length p))

/-- A whole-buffer decode followed by `expect_end`, the shape used by
`get_storage_info`, `get_objecthandles`, `get_storageids`, `get_numobjects`. -/
def parseFull (r : Reader α) (data : Bytes) : Except Error α :=
  match (rbind r fun v => rbind expect_end fun _ => rpure v) data 0 with
  | .ok (v, _) => .ok v
  | .error e => .error e

/-- Little-endian byte serialization of `w`-byte unsigned values, the common
core of `byteorder`'s `write_u16::<LittleEndian>` … `write_u128`. -/
def leBytes : Nat → Nat → List Nat
  | 0, _ => []
  | w + 1, x => x % 256 :: leBytes w (x / 256)

/-- Little-endian two's-complement serialization of `w`-byte signed values. -/
def leBytesSigned (w : Nat) (v : Int) : List Nat :=
  leBytes w (v % (2 ^ (8 * w))).toNat

/-- Element-wise serialization of an array payload (the per-item write loop
of the array arms of `DataType::encode`). -/
def encodeEachU (w : Nat) : List Nat → List Nat
  | [] => []
  | x :: xs => leBytes w x ++ encodeEachU w xs

def encodeEachI (w : Nat) : List Int → List Nat
  | [] => []
  | x :: xs => leBytesSigned w x ++ encodeEachI w xs

/-- `enum DataType` of `src/data_type.rs`.  Unsigned payloads are `Nat`,
signed payloads are `Int`; the machine-width bounds of the Rust field types
are captured by `DataType.inRange` below. -/
inductive DataType where
  | UNDEF
  | INT8 (v : Int)
  | UINT8 (v : Nat)
  | INT16 (v : Int)
  | UINT16 (v : Nat)
  | INT32 (v : Int)
  | UINT32 (v : Nat)
  | INT64 (v : Int)
  | UINT64 (v : Nat)
  | INT128 (v : Int)
  | UINT128 (v : Nat)
  | AINT8 (v : List Int)
  | AUINT8 (v : List Nat)
  | AINT16 (v : List Int)
  | AUINT16 (v : List Nat)
  | AINT32 (v : List Int)
  | AUINT32 (v : List Nat)
  | AINT64 (v : List Int)
  | AUINT64 (v : List Nat)
  | AINT128 (v : List Int)
  | AUINT128 (v : List Nat)
  | STR (s : String)
deriving DecidableEq, Repr

/-- `DataType::encode`.  Array arms prefix `val.len() as u32` (hence the
`% 2^32`).  The string arm writes the u8 prefix `(val.len() as u8) * 2 + 1`
— `val.len()` being the UTF-8 **byte** length of the Rust `String` — then,
when non-empty, the UTF-16 code units and a trailing `\0\0`; the u8
arithmetic wraps, which is `(2 * utf8Len + 1) % 256` since `2 * (len % 128)`
never reaches 255 before the `+ 1`. -/
def DataType.encode : DataType → List Nat
  | .UNDEF => []
  | .INT8 v => leBytesSigned 1 v
  | .UINT8 v => leBytes 1 v
  | .INT16 v => leBytesSigned 2 v
  | .UINT16 v => leBytes 2 v
  | .INT32 v => leBytesSigned 4 v
  | .UINT32 v => leBytes 4 v
  | .INT64 v => leBytesSigned 8 v
  | .UINT64 v => leBytes 8 v
  | .INT128 v => leBytesSigned 16 v
  | .UINT128 v => leBytes 16 v
  | .AINT8 v => leBytes 4 (v.length % 2 ^ 32) ++ encodeEachI 1 v
  | .AUINT8 v => leBytes 4 (v.length % 2 ^ 32) ++ encodeEachU 1 v
  | .AINT16 v => leBytes 4 (v.length % 2 ^ 32) ++ encodeEachI 2 v
  | .AUINT16 v => leBytes 4 (v.length % 2 ^ 32) ++ encodeEachU 2 v
  | .AINT32 v => leBytes 4 (v.length % 2 ^ 32) ++ encodeEachI 4 v
  | .AUINT32 v => leBytes 4 (v.length % 2 ^ 32) ++ encodeEachU 4 v
  | .AINT64 v => leBytes 4 (v.length % 2 ^ 32) ++ encodeEachI 8 v
  | .AUINT64 v => leBytes 4 (v.length % 2 ^ 32) ++ encodeEachU 8 v
  | .AINT128 v => leBytes 4 (v.length % 2 ^ 32) ++ encodeEachI 16 v
  | .AUINT128 v => leBytes 4 (v.length % 2 ^ 32) ++ encodeEachU 16 v
  | .STR s =>
    (2 * s.utf8ByteSize + 1) % 256 ::
      (if s.isEmpty then [] else encodeEachU 2 (encodeUtf16List s.data) ++ [0, 0])

/-- `DataType::read_type`: dispatch on the PTP datatype tag; unknown tags
yield `UNDEF` without consuming anything. -/
def DataType.read_type (kind : Nat) : Reader DataType :=
  match kind with
  | 0x0001 => rbind read_ptp_i8 fun v => rpure (.INT8 v)
  | 0x0002 => rbind read_ptp_u8 fun v => rpure (.UINT8 v)
  | 0x0003 => rbind read_ptp_i16 fun v => rpure (.INT16 v)
  | 0x0004 => rbind read_ptp_u16 fun v => rpure (.UINT16 v)
  | 0x0005 => rbind read_ptp_i32 fun v => rpure (.INT32 v)
  | 0x0006 => rbind read_ptp_u32 fun v => rpure (.UINT32 v)
  | 0x0007 => rbind read_ptp_i64 fun v => rpure (.INT64 v)
  | 0x0008 => rbind read_ptp_u64 fun v => rpure (.UINT64 v)
  | 0x0009 => rbind read_ptp_i128 fun v => rpure (.INT128 v)
  | 0x000A => rbind read_ptp_u128 fun v => rpure (.UINT128 v)
  | 0x4001 => rbind read_ptp_i8_vec fun v => rpure (.AINT8 v)
  | 0x4002 => rbind read_ptp_u8_vec fun v => rpure (.AUINT8 v)
  | 0x4003 => rbind read_ptp_i16_vec fun v => rpure (.AINT16 v)
  | 0x4004 => rbind read_ptp_u16_vec fun v => rpure (.AUINT16 v)
  | 0x4005 => rbind read_ptp_i32_vec fun v => rpure (.AINT32 v)
  | 0x4006 => rbind read_ptp_u32_vec fun v => rpure (.AUINT32 v)
  | 0x4007 => rbind read_ptp_i64_vec fun v => rpure (.AINT64 v)
  | 0x4008 => rbind read_ptp_u64_vec fun v => rpure (.AUINT64 v)
  | 0x4009 => rbind read_ptp_i128_vec fun v => rpure (.AINT128 v)
  | 0x400A => rbind read_ptp_u128_vec fun v => rpure (.AUINT128 v)
  | 0xFFFF => rbind read_ptp_str fun v => rpure (.STR v)
  | _ => rpure .UNDEF

/-- The PTP datatype tag of a scalar or array variant (`0x0001`–`0x000A`,
`0x4001`–`0x400A`); `none` for `UNDEF` and `STR`. -/
def DataType.tagOf : DataType → Option Nat
  | .UNDEF => none
  | .INT8 _ => some 0x0001
  | .UINT8 _ => some 0x0002
  | .INT16 _ => some 0x0003
  | .UINT16 _ => some 0x0004
  | .INT32 _ => some 0x0005
  | .UINT32 _ => some 0x0006
  | .INT64 _ => some 0x0007
  | .UINT64 _ => some 0x0008
  | .INT128 _ => some 0x0009
  | .UINT128 _ => some 0x000A
  | .AINT8 _ => some 0x4001
  | .AUINT8 _ => some 0x4002
  | .AINT16 _ => some 0x4003
  | .AUINT16 _ => some 0x4004
  | .AINT32 _ => some 0x4005
  | .AUINT32 _ => some 0x4006
  | .AINT64 _ => some 0x4007
  | .AUINT64 _ => some 0x4008
  | .AINT128 _ => some 0x4009
  | .AUINT128 _ => some 0x400A
  | .STR _ => none

def uInRange (w : Nat) (v : Nat) : Prop := v < 2 ^ (8 * w)

def iInRange (w : Nat) (v : Int) : Prop :=
  -(2 ^ (8 * w - 1)) ≤ v ∧ v < 2 ^ (8 * w - 1)

/-- The machine-width bounds imposed by the Rust payload types (`i8`, `u8`,
…, `Vec<u128>`): every element fits its width, and a `Vec` length fits in
the `u32` count prefix. -/
def DataType.inRange : DataType → Prop
  | .UNDEF => True
  | .INT8 v => iInRange 1 v
  | .UINT8 v => uInRange 1 v
  | .INT16 v => iInRange 2 v
  | .UINT16 v => uInRange 2 v
  | .INT32 v => iInRange 4 v
  | .UINT32 v => uInRange 4 v
  | .INT64 v => iInRange 8 v
  | .UINT64 v => uInRange 8 v
  | .INT128 v => iInRange 16 v
  | .UINT128 v => uInRange 16 v
  | .AINT8 v => v.length < 2 ^ 32 ∧ ∀ x ∈ v, iInRange 1 x
  | .AUINT8 v => v.length < 2 ^ 32 ∧ ∀ x ∈ v, uInRange 1 x
  | .AINT16 v => v.length < 2 ^ 32 ∧ ∀ x ∈ v, iInRange 2 x
  | .AUINT16 v => v.length < 2 ^ 32 ∧ ∀ x ∈ v, uInRange 2 x
  | .AINT32 v => v.length < 2 ^ 32 ∧ ∀ x ∈ v, iInRange 4 x
  | .AUINT32 v => v.length < 2 ^ 32 ∧ ∀ x ∈ v, uInRange 4 x
  | .AINT64 v => v.length < 2 ^ 32 ∧ ∀ x ∈ v, iInRange 8 x
  | .AUINT64 v => v.length < 2 ^ 32 ∧ ∀ x ∈ v, uInRange 8 x
  | .AINT128 v => v.length < 2 ^ 32 ∧ ∀ x ∈ v, iInRange 16 x
  | .AUINT128 v => v.length < 2 ^ 32 ∧ ∀ x ∈ v, uInRange 16 x
  | .STR _ => True

instance (w v : Nat) : Decidable (uInRange w v) := by
  unfold uInRange; infer_instance

instance (w : Nat) (v : Int) : Decidable (iInRange w v) := by
  unfold iInRange; infer_instance

instance (v : DataType) : Decidable v.inRange := by
  cases v <;> (unfold DataType.inRange; infer_instance)

/-- `struct DeviceInfo` of `src/lib.rs`. -/
structure DeviceInfo where
  Version : Nat
  VendorExID : Nat
  VendorExVersion : Nat
  VendorExtensionDesc : String
  FunctionalMode : Nat
  OperationsSupported : List Nat
  EventsSupported : List Nat
  DevicePropertiesSupported : List Nat
  CaptureFormats : List Nat
  ImageFormats : List Nat
  Manufacturer : String
  Model : String
  DeviceVersion : String
  SerialNumber : String
deriving DecidableEq, Repr

/-- The field-by-field cursor reads of `DeviceInfo::decode`. -/
def DeviceInfo.decodeReader : Reader DeviceInfo :=
  rbind read_ptp_u16 fun version =>
  rbind read_ptp_u32 fun vendorExID =>
  rbind read_ptp_u16 fun vendorExVersion =>
  rbind read_ptp_str fun vendorExtensionDesc =>
  rbind read_ptp_u16 fun functionalMode =>
  rbind read_ptp_u16_vec fun operationsSupported =>
  rbind read_ptp_u16_vec fun eventsSupported =>
  rbind read_ptp_u16_vec fun devicePropertiesSupported =>
  rbind read_ptp_u16_vec fun captureFormats =>
  rbind read_ptp_u16_vec fun imageFormats =>
  rbind read_ptp_str fun manufacturer =>
  rbind read_ptp_str fun model =>
  rbind read_ptp_str fun deviceVersion =>
  rbind read_ptp_str fun serialNumber =>
  rpure ⟨version, vendorExID, vendorExVersion, vendorExtensionDesc,
    functionalMode, operationsSupported, eventsSupported,
    devicePropertiesSupported, captureFormats, imageFormats,
    manufacturer, model, deviceVersion, serialNumber⟩

/-- `DeviceInfo::decode(buf)`: a fresh cursor over the whole buffer; note
that it performs **no** `expect_end` check. -/
def DeviceInfo.decode (buf : Bytes) : Except Error DeviceInfo :=
  match DeviceInfo.decodeReader buf 0 with
  | .ok (v, _) => .ok v
  | .error e => .error e

/-- `struct ObjectInfo` of `src/lib.rs`. -/
structure ObjectInfo where
  StorageID : Nat
  ObjectFormat : Nat
  ProtectionStatus : Nat
  ObjectCompressedSize : Nat
  ThumbFormat : Nat
  ThumbCompressedSize : Nat
  ThumbPixWidth : Nat
  ThumbPixHeight : Nat
  ImagePixWidth : Nat
  ImagePixHeight : Nat
  ImageBitDepth : Nat
  ParentObject : Nat
  AssociationType : Nat
  AssociationDesc : Nat
  SequenceNumber : Nat
  Filename : String
  CaptureDate : String
  ModificationDate : String
  Keywords : String
deriving DecidableEq, Repr

/-- The field-by-field cursor reads of `ObjectInfo::decode`. -/
def ObjectInfo.decodeReader : Reader ObjectInfo :=
  rbind read_ptp_u32 fun storageID =>
  rbind read_ptp_u16 fun objectFormat =>
  rbind read_ptp_u16 fun protectionStatus =>
  rbind read_ptp_u32 fun objectCompressedSize =>
  rbind read_ptp_u16 fun thumbFormat =>
  rbind read_ptp_u32 fun thumbCompressedSize =>
  rbind read_ptp_u32 fun thumbPixWidth =>
  rbind read_ptp_u32 fun thumbPixHeight =>
  rbind read_ptp_u32 fun imagePixWidth =>
  rbind read_ptp_u32 fun imagePixHeight =>
  rbind read_ptp_u32 fun imageBitDepth =>
  rbind read_ptp_u32 fun parentObject =>
  rbind read_ptp_u16 fun associationType =>
  rbind read_ptp_u32 fun associationDesc =>
  rbind read_ptp_u32 fun sequenceNumber =>
  rbind read_ptp_str fun filename =>
  rbind read_ptp_str fun captureDate =>
  rbind read_ptp_str fun modificationDate =>
  rbind read_ptp_str fun keywords =>
  rpure ⟨storageID, objectFormat, protectionStatus, objectCompressedSize,
    thumbFormat, thumbCompressedSize, thumbPixWidth, thumbPixHeight,
    imagePixWidth, imagePixHeight, imageBitDepth, parentObject,
    associationType, associationDesc, sequenceNumber,
    filename, captureDate, modificationDate, keywords⟩

/-- `ObjectInfo::decode(buf)`: whole-buffer decode without `expect_end`. -/
def ObjectInfo.decode (buf : Bytes) : Except Error ObjectInfo :=
  match ObjectInfo.decodeReader buf 0 with
  | .ok (v, _) => .ok v
  | .error e => .error e

/-- `struct StorageInfo` of `src/lib.rs`. -/
structure StorageInfo where
  StorageType : Nat
  FilesystemType : Nat
  AccessCapability : Nat
  MaxCapacity : Nat
  FreeSpaceInBytes : Nat
  FreeSpaceInImages : Nat
  StorageDescription : String
  VolumeLabel : String
deriving DecidableEq, Repr

/-- `StorageInfo::decode`: a mid-stream decoder taking the caller's cursor
(it does not call `expect_end` itself). -/
def StorageInfo.decode : Reader StorageInfo :=
  rbind read_ptp_u16 fun storageType =>
  rbind read_ptp_u16 fun filesystemType =>
  rbind read_ptp_u16 fun accessCapability =>
  rbind read_ptp_u64 fun maxCapacity =>
  rbind read_ptp_u64 fun freeSpaceInBytes =>
  rbind read_ptp_u32 fun freeSpaceInImages =>
  rbind read_ptp_str fun storageDescription =>
  rbind read_ptp_str fun volumeLabel =>
  rpure ⟨storageType, filesystemType, accessCapability, maxCapacity,
    freeSpaceInBytes, freeSpaceInImages, storageDescription, volumeLabel⟩

/-- The parsing half of `Camera::get_storage_info`: `StorageInfo::decode`
on a fresh cursor, then `expect_end`. -/
def get_storage_info_parse (data : Bytes) : Except Error StorageInfo :=
  parseFull StorageInfo.decode data

/-- The parsing half of `Camera::get_objecthandles` / `get_storageids`:
`read_ptp_u32_vec`, then `expect_end`. -/
def get_objecthandles_parse (data : Bytes) : Except Error (List Nat) :=
  parseFull read_ptp_u32_vec data

/-- The parsing half of `Camera::get_numobjects`: `read_ptp_u32`, then
`expect_end`. -/
def get_numobjects_parse (data : Bytes) : Except Error Nat :=
  parseFull read_ptp_u32 data

/-- `enum ContainerType` of `src/camera.rs`. -/
inductive ContainerType where
  | Command
  | Data
  | Response
  | Event
deriving DecidableEq, Repr

/-- `ContainerType as u16` (the `#[repr(u16)]` discriminants). -/
def ContainerType.toU16 : ContainerType → Nat
  | .Command => 1
  | .Data => 2
  | .Response => 3
  | .Event => 4

/-- `ContainerType::from_u16`. -/
def ContainerType.from_u16 : Nat → Option ContainerType
  | 1 => some .Command
  | 2 => some .Data
  | 3 => some .Response
  | 4 => some .Event
  | _ => none

/-- `struct ContainerInfo` of `src/camera.rs`. -/
structure ContainerInfo where
  payload_len : Nat
  kind : ContainerType
  code : Nat
  tid : Nat
deriving DecidableEq, Repr

def CONTAINER_INFO_SIZE : Nat := 12

/-- Rust's `{:x}` lower-case hexadecimal rendering. -/
def hexStr (n : Nat) : String := String.mk (Nat.toDigits 16 n)

/-- The `Malformed` message for an unknown container kind. -/
def invalidKindMsg (kind : Nat) : String :=
  "Invalid message type " ++ hexStr kind ++ "."

/-- `ContainerInfo::parse`.  The payload length is computed by the Rust
expression `len as usize - CONTAINER_INFO_SIZE`; on a 64-bit host with
release-profile arithmetic this **wraps** when `len < 12` (a debug build
panics there instead), which the `+ 2^64 … % 2^64` makes explicit.  There
is no `len ≥ 12` validation. -/
def ContainerInfo.parse : Reader ContainerInfo :=
  rbind (readUnsignedLE 4) fun len =>
  rbind (readUnsignedLE 2) fun kind_u16 =>
  rbind (fun _ p =>
    match ContainerType.from_u16 kind_u16 with
    | some k => .ok (k, p)
    | none => .error (.Malformed (invalidKindMsg kind_u16))) fun kind =>
  rbind (readUnsignedLE 2) fun code =>
  rbind (readUnsignedLE 4) fun tid =>
  rpure ⟨(len + 2 ^ 64 - CONTAINER_INFO_SIZE) % 2 ^ 64, kind, code, tid⟩

/-- `ContainerInfo::belongs_to`. -/
def ContainerInfo.belongs_to (c : ContainerInfo) (tid : Nat) : Bool :=
  c.tid == tid

def CHUNK_SIZE : Nat := 1024 * 1024

/-- `slice::chunks(n)` with explicit fuel (the fuel is instantiated with the
list length, which bounds the number of chunks since `n > 0`). -/
def chunksOfAux (n : Nat) : Nat → List α → List (List α)
  | _, [] => []
  | 0, l => [l]
  | fuel + 1, l => l.take n :: chunksOfAux n fuel (l.drop n)

/-- `slice::chunks(n)`: successive sub-slices of at most `n` elements; an
empty slice yields no chunks. -/
def chunksOf (n : Nat) (l : List α) : List (List α) :=
  chunksOfAux n l.length l

/-- `Camera::write_txn_phase`, as the list of buffers handed to
`write_bulk` in order.  The first buffer holds the 12-byte little-endian
header — whose length field is `(payload.len() + 12) as u32` — plus as much
payload as fits below `CHUNK_SIZE`; the rest of the payload follows in
`CHUNK_SIZE` chunks.  `kind`, `code` and `tid` are `u16`/`u16`/`u32` in
Rust, hence the masks. -/
def write_txn_phase (kind : ContainerType) (code : Nat) (tid : Nat)
    (payload : List Nat) : List (List Nat) :=
  let first_chunk_payload_bytes := min payload.length (CHUNK_SIZE - CONTAINER_INFO_SIZE)
  let buf :=
    leBytes 4 ((payload.length + CONTAINER_INFO_SIZE) % 2 ^ 32) ++
    leBytes 2 kind.toU16 ++
    leBytes 2 (code % 2 ^ 16) ++
    leBytes 4 (tid % 2 ^ 32) ++
    payload.take first_chunk_payload_bytes
  buf :: chunksOf CHUNK_SIZE (payload.drop first_chunk_payload_bytes)

/-- The request-phase payload of `Camera::command`: the parameters written
as consecutive little-endian u32 values. -/
def request_payload : List Nat → List Nat
  | [] => []
  | p :: ps => leBytes 4 (p % 2 ^ 32) ++ request_payload ps

/-- The `Malformed` message for a transaction-id mismatch
(`"mismatched txnid {}, expecting {}"`). -/
def mismatchMsg (received expected : Nat) : String :=
  s!"mismatched txnid {received}, expecting {expected}"

/-- The read loop of `Camera::command` over the containers delivered by
`read_txn_phase`, one `(ContainerInfo, payload)` pair per iteration.
`dataPayload` is the retained data-phase payload (`data_phase_payload` in
the Rust, initially `vec![]`).  Exhausting the modelled container list
before a response terminates the loop with `none` (in the real engine the
next bulk read would block or fail at the USB layer). -/
def commandLoop (tid : Nat) (dataPayload : List Nat) :
    List (ContainerInfo × List Nat) → Option (Except Error (List Nat))
  | [] => none
  | (container, payload) :: rest =>
    if container.belongs_to tid = false then
      some (.error (.Malformed (mismatchMsg container.tid tid)))
    else
      match container.kind with
      | .Data => commandLoop tid payload rest
      | .Response =>
        if container.code ≠ 0x2001 then some (.error (.Response container.code))
        else some (.ok dataPayload)
      | _ => commandLoop tid dataPayload rest

/-- The session state carried by `struct Camera` that `command` touches:
the `u32` field `current_tid`. -/
structure CameraState where
  current_tid : Nat
deriving DecidableEq, Repr

/-- `current_tid: 0` in the `Camera` literal built by `Camera::new`. -/
def Camera.new_current_tid : Nat := 0

/-- The observable outcome of one `Camera::command` call: the buffers
written to the OUT endpoint, the loop result, and the transaction id the
call used. -/
structure CommandOutcome where
  writes : List (List Nat)
  result : Option (Except Error (List Nat))
  tidUsed : Nat
deriving Repr

/-- `Camera::command`.  `recv` is the sequence of containers the IN
endpoint delivers.  The tid is read from `current_tid`, which is then
incremented once (`u32` wrap made explicit) before any phase runs, exactly
as in the Rust (`let tid = self.current_tid; self.current_tid += 1;`). -/
def Camera.command (st : CameraState) (code : Nat) (params : List Nat)
    (data : Option (List Nat)) (recv : List (ContainerInfo × List Nat)) :
    CommandOutcome × CameraState :=
  let tid := st.current_tid
  let st2 : CameraState := ⟨(st.current_tid + 1) % 2 ^ 32⟩
  let writes :=
    write_txn_phase .Command code tid (request_payload params) ++
    (match data with
     | some d => write_txn_phase .Data code tid d
     | none => [])
  (⟨writes, commandLoop tid [] recv, tid⟩, st2)

/-- The camera state after `n` `command` calls on a freshly constructed
`Camera` (the arguments of the calls do not affect `current_tid`). -/
def stateAfterCalls : Nat → CameraState
  | 0 => ⟨Camera.new_current_tid⟩
  | n + 1 => (Camera.command (stateAfterCalls n) 0x1001 [] none []).2

/-- The transaction id used by call number `n` (0-based) on a freshly
constructed `Camera`. -/
def tidUsedByCall (n : Nat) : Nat :=
  (Camera.command (stateAfterCalls n) 0x1001 [] none []).1.tidUsed

/-- `StandardCommandCode::GetObjectHandles`. -/
def GetObjectHandles : Nat := 0x1007

/-- `StandardCommandCode::GetNumObjects`. -/
def GetNumObjects : Nat := 0x1006

/-- The parameter slice `Camera::get_objecthandles` passes to `command`:
`&[storage_id, filter.unwrap_or(0x0), handle_id]`. -/
def get_objecthandles_params (storage_id handle_id : Nat)
    (filter : Option Nat) : List Nat :=
  [storage_id, filter.getD 0, handle_id]

/-- The parameter slice `Camera::get_numobjects` passes to `command`:
`&[storage_id, filter.unwrap_or(0x0), handle_id]`. -/
def get_numobjects_params (storage_id handle_id : Nat)
    (filter : Option Nat) : List Nat :=
  [storage_id, filter.getD 0, handle_id]

/-- The `command` invocation made by `Camera::get_objecthandles` (wire side). -/
def get_objecthandles_command (st : CameraState) (storage_id handle_id : Nat)
    (filter : Option Nat) (recv : List (ContainerInfo × List Nat)) :
    CommandOutcome × CameraState :=
  Camera.command st GetObjectHandles
    (get_objecthandles_params storage_id handle_id filter) none recv

/-- The `command` invocation made by `Camera::get_numobjects` (wire side). -/
def get_numobjects_command (st : CameraState) (storage_id handle_id : Nat)
    (filter : Option Nat) (recv : List (ContainerInfo × List Nat)) :
    CommandOutcome × CameraState :=
  Camera.command st GetNumObjects
    (get_numobjects_params storage_id handle_id filter) none recv

/-! ### Byte-level lemmas about the primitive reads and writes -/

theorem length_leBytes (w x : Nat) : (leBytes w x).length = w := by
  induction w generalizing x with
  | zero => rfl
  | succ w ih => simp [leBytes, ih]

theorem length_leBytesSigned (w : Nat) (v : Int) :
    (leBytesSigned w v).length = w := by
  simp [leBytesSigned, length_leBytes]

theorem drop_cons {b : Bytes} {p : Nat} {a : Nat} {l : List Nat}
    (h : b.drop p = a :: l) : b.drop (p + 1) = l := by
  have h2 := List.drop_drop 1 p b
  rw [← h2, h]
  rfl

theorem read_u8_drop {b : Bytes} {p a : Nat} {l : List Nat}
    (h : b.drop p = a :: l) : read_u8 b p = .ok (a, p + 1) := by
  have hlt : p < b.length := by
    by_contra hge
    rw [List.drop_eq_nil_of_le (Nat.le_of_not_lt hge)] at h
    exact List.noConfusion h
  have hget : b[p]? = some a := by
    have h0 : (b.drop p)[0]? = some a := by rw [h]; simp
    rw [List.getElem?_drop, Nat.add_zero] at h0
    exact h0
  rw [List.getElem?_eq_getElem hlt, Option.some_inj] at hget
  simp [read_u8, hlt, hget]

theorem read_u8_eof {b : Bytes} {p : Nat} (h : b.length ≤ p) :
    read_u8 b p = .error (.Malformed "Unexpected end of message") := by
  simp [read_u8, Nat.not_lt.mpr h, Error.fromIo]

theorem readUnsignedLE_drop {w : Nat} {b : Bytes} {p x : Nat} {suf : List Nat}
    (hx : x < 256 ^ w) (h : b.drop p = leBytes w x ++ suf) :
    readUnsignedLE w b p = .ok (x, p + w) := by
  induction w generalizing p x with
  | zero =>
    have : x = 0 := Nat.lt_one_iff.mp hx
    subst this
    rfl
  | succ w ih =>
    have h1 : b.drop p = x % 256 :: (leBytes w (x / 256) ++ suf) := by
      simpa [leBytes] using h
    have h2 : b.drop (p + 1) = leBytes w (x / 256) ++ suf := drop_cons h1
    have hx2 : x / 256 < 256 ^ w := by
      rw [Nat.div_lt_iff_lt_mul (by norm_num)]
      calc x < 256 ^ (w + 1) := hx
        _ = 256 ^ w * 256 := by rw [Nat.pow_succ]
    have hrec := ih hx2 h2
    have hmod : x % 256 + 256 * (x / 256) = x := by omega
    simp only [readUnsignedLE, rbind, read_u8_drop h1, hrec, rpure, hmod]
    congr 2
    omega

theorem readUnsignedLE_eof {w : Nat} {b : Bytes} {p : Nat}
    (hw : 0 < w) (h : b.length < p + w) :
    readUnsignedLE w b p = .error (.Malformed "Unexpected end of message") := by
  induction w generalizing p with
  | zero => exact absurd hw (Nat.lt_irrefl 0)
  | succ w ih =>
    by_cases hp : p < b.length
    · have hw0 : 0 < w := by
        rcases Nat.eq_zero_or_pos w with h0 | h0
        · subst h0; omega
        · exact h0
      obtain ⟨a, l, hd⟩ : ∃ a l, b.drop p = a :: l := by
        cases hdrop : b.drop p with
        | nil =>
          have := List.drop_eq_nil_iff.mp hdrop
          omega
        | cons a l => exact ⟨a, l, rfl⟩
      have hrec := ih hw0 (p := p + 1) (by omega)
      simp only [readUnsignedLE, rbind, read_u8_drop hd, hrec]
    · simp only [readUnsignedLE, rbind, read_u8_eof (Nat.le_of_not_lt hp)]

theorem readUnsignedLE_ok_of_le {w : Nat} {b : Bytes} {p : Nat}
    (h : p + w ≤ b.length) :
    ∃ v, readUnsignedLE w b p = .ok (v, p + w) := by
  induction w generalizing p with
  | zero => exact ⟨0, rfl⟩
  | succ w ih =>
    have hp : p < b.length := by omega
    obtain ⟨a, l, hd⟩ : ∃ a l, b.drop p = a :: l := by
      cases hdrop : b.drop p with
      | nil =>
        have := List.drop_eq_nil_iff.mp hdrop
        omega
      | cons a l => exact ⟨a, l, rfl⟩
    obtain ⟨v, hv⟩ := ih (p := p + 1) (by omega)
    refine ⟨a + 256 * v, ?_⟩
    simp only [readUnsignedLE, rbind, read_u8_drop hd, hv, rpure]
    congr 2
    omega

theorem toSigned_emod {w : Nat} (hw : 0 < w) {v : Int}
    (h1 : -(2 ^ (8 * w - 1)) ≤ v) (h2 : v < 2 ^ (8 * w - 1)) :
    toSigned w ((v % (2 ^ (8 * w))).toNat : Nat) = v := by
  have hsplit : (8 : Nat) * w = (8 * w - 1) + 1 := by omega
  have hM : (2 : Int) ^ (8 * w) = 2 * 2 ^ (8 * w - 1) := by
    conv_lhs => rw [hsplit]
    rw [pow_succ]
    ring
  have hMpos : (0 : Int) < 2 ^ (8 * w - 1) := by positivity
  rcases le_or_lt 0 v with hv | hv
  · have hlt : v < 2 ^ (8 * w) := by omega
    have hmod : v % (2 ^ (8 * w)) = v := Int.emod_eq_of_lt hv hlt
    rw [hmod, toSigned]
    have htn : ((v.toNat : Int)) = v := Int.toNat_of_nonneg hv
    have hcase : (v.toNat : Nat) < 2 ^ (8 * w - 1) := by
      have : ((v.toNat : Int)) < ((2 ^ (8 * w - 1) : Nat) : Int) := by
        rw [htn]
        push_cast
        exact h2
      exact_mod_cast this
    rw [if_pos hcase]
    exact_mod_cast htn
  · have hge : (0 : Int) ≤ v + 2 ^ (8 * w) := by omega
    have hlt : v + 2 ^ (8 * w) < 2 ^ (8 * w) := by omega
    have hmod : v % (2 ^ (8 * w)) = v + 2 ^ (8 * w) := by
      have h0 : ((v + 2 ^ (8 * w)) : Int) % (2 ^ (8 * w)) = v % (2 ^ (8 * w)) := by
        simp [Int.add_mul_emod_self_left]
      rw [← h0]
      exact Int.emod_eq_of_lt hge hlt
    rw [hmod, toSigned]
    have hbig : ¬ (((v + 2 ^ (8 * w)).toNat : Nat) < 2 ^ (8 * w - 1)) := by
      have hcast : (((v + 2 ^ (8 * w)).toNat : Nat) : Int) = v + 2 ^ (8 * w) :=
        Int.toNat_of_nonneg hge
      intro hcontra
      have : (((v + 2 ^ (8 * w)).toNat : Nat) : Int) < ((2 ^ (8 * w - 1) : Nat) : Int) := by
        exact_mod_cast hcontra
      rw [hcast] at this
      push_cast at this
      omega
    rw [if_neg hbig]
    have hcast : (((v + 2 ^ (8 * w)).toNat : Nat) : Int) = v + 2 ^ (8 * w) :=
      Int.toNat_of_nonneg hge
    rw [hcast]
    ring

theorem pow256 (w : Nat) : (256 : Nat) ^ w = 2 ^ (8 * w) := by
  rw [show (256 : Nat) = 2 ^ 8 from rfl, ← pow_mul]

theorem emod_toNat_lt (w : Nat) (v : Int) :
    ((v % (2 ^ (8 * w))).toNat : Nat) < 256 ^ w := by
  rw [pow256]
  have hpos : (0 : Int) < 2 ^ (8 * w) := by positivity
  have hlt : v % (2 ^ (8 * w)) < 2 ^ (8 * w) := Int.emod_lt_of_pos v hpos
  have : ((v % (2 ^ (8 * w))).toNat : Int) < ((2 ^ (8 * w) : Nat) : Int) := by
    rcases le_or_lt 0 (v % (2 ^ (8 * w))) with hge | hneg
    · rw [Int.toNat_of_nonneg hge]
      push_cast
      exact hlt
    · rw [Int.toNat_of_nonpos (le_of_lt hneg)]
      push_cast
      positivity
  exact_mod_cast this

theorem readSignedLE_drop {w : Nat} (hw : 0 < w) {b : Bytes} {p : Nat}
    {v : Int} {suf : List Nat} (h1 : -(2 ^ (8 * w - 1)) ≤ v)
    (h2 : v < 2 ^ (8 * w - 1))
    (h : b.drop p = leBytesSigned w v ++ suf) :
    readSignedLE w b p = .ok (v, p + w) := by
  have hx : ((v % (2 ^ (8 * w))).toNat : Nat) < 256 ^ w := emod_toNat_lt w v
  have hread := readUnsignedLE_drop hx (by simpa [leBytesSigned] using h)
  simp only [readSignedLE, rbind, hread, rpure, toSigned_emod hw h1 h2]

theorem drop_append {b : Bytes} {p : Nat} {l1 l2 : List Nat}
    (h : b.drop p = l1 ++ l2) : b.drop (p + l1.length) = l2 := by
  rw [← List.drop_drop l1.length p b, h, List.drop_left]

theorem readCount_unsigned_drop {w : Nat} {l : List Nat}
    (hl : ∀ x ∈ l, x < 256 ^ w) {b : Bytes} {p : Nat} {suf : List Nat}
    (h : b.drop p = encodeEachU w l ++ suf) :
    readCount l.length (readUnsignedLE w) b p = .ok (l, p + w * l.length) := by
  induction l generalizing p with
  | nil => simp [readCount, rpure]
  | cons x xs ih =>
    have h1 : b.drop p = leBytes w x ++ (encodeEachU w xs ++ suf) := by
      simpa [encodeEachU] using h
    have hx := hl x (List.mem_cons_self x xs)
    have hread := readUnsignedLE_drop hx h1
    have h2 : b.drop (p + w) = encodeEachU w xs ++ suf := by
      have := drop_append h1
      rwa [length_leBytes] at this
    have hrec := ih (fun y hy => hl y (List.mem_cons_of_mem x hy)) h2
    simp only [List.length_cons, readCount, rbind, hread, hrec, rpure]
    congr 2
    ring

theorem readCount_signed_drop {w : Nat} (hw : 0 < w) {l : List Int}
    (hl : ∀ x ∈ l, -(2 ^ (8 * w - 1)) ≤ x ∧ x < 2 ^ (8 * w - 1))
    {b : Bytes} {p : Nat} {suf : List Nat}
    (h : b.drop p = encodeEachI w l ++ suf) :
    readCount l.length (readSignedLE w) b p = .ok (l, p + w * l.length) := by
  induction l generalizing p with
  | nil => simp [readCount, rpure]
  | cons x xs ih =>
    have h1 : b.drop p = leBytesSigned w x ++ (encodeEachI w xs ++ suf) := by
      simpa [encodeEachI] using h
    obtain ⟨hx1, hx2⟩ := hl x (List.mem_cons_self x xs)
    have hread := readSignedLE_drop hw hx1 hx2 h1
    have h2 : b.drop (p + w) = encodeEachI w xs ++ suf := by
      have := drop_append h1
      rwa [length_leBytesSigned] at this
    have hrec := ih (fun y hy => hl y (List.mem_cons_of_mem x hy)) h2
    simp only [List.length_cons, readCount, rbind, hread, hrec, rpure]
    congr 2
    ring

theorem readSignedLE_eof {w : Nat} {b : Bytes} {p : Nat}
    (hw : 0 < w) (h : b.length < p + w) :
    readSignedLE w b p = .error (.Malformed "Unexpected end of message") := by
  simp only [readSignedLE, rbind, readUnsignedLE_eof hw h]

theorem readSignedLE_ok_of_le {w : Nat} {b : Bytes} {p : Nat}
    (h : p + w ≤ b.length) :
    ∃ v, readSignedLE w b p = .ok (v, p + w) := by
  obtain ⟨n, hn⟩ := readUnsignedLE_ok_of_le h
  exact ⟨toSigned w n, by simp only [readSignedLE, rbind, hn, rpure]⟩

theorem readCount_unsigned_eof {w c : Nat} (hw : 0 < w) (hc : 0 < c)
    {b : Bytes} {p : Nat} (h : b.length < p + w * c) :
    readCount c (readUnsignedLE w) b p =
      .error (.Malformed "Unexpected end of message") := by
  induction c generalizing p with
  | zero => exact absurd hc (Nat.lt_irrefl 0)
  | succ k ih =>
    have hexp : w * (k + 1) = w * k + w := Nat.mul_succ w k
    rw [hexp] at h
    by_cases hle : p + w ≤ b.length
    · obtain ⟨v, hv⟩ := readUnsignedLE_ok_of_le (w := w) (b := b) (p := p) hle
      have hk : 0 < k := by
        by_contra hk0
        have hk1 : k = 0 := by omega
        subst hk1
        simp only [Nat.mul_zero, Nat.zero_add] at h
        omega
      have hrec := ih hk (p := p + w) (by omega)
      simp only [readCount, rbind, hv, hrec]
    · have herr := readUnsignedLE_eof (b := b) (p := p) hw (by omega)
      simp only [readCount, rbind, herr]

theorem readCount_signed_eof {w c : Nat} (hw : 0 < w) (hc : 0 < c)
    {b : Bytes} {p : Nat} (h : b.length < p + w * c) :
    readCount c (readSignedLE w) b p =
      .error (.Malformed "Unexpected end of message") := by
  induction c generalizing p with
  | zero => exact absurd hc (Nat.lt_irrefl 0)
  | succ k ih =>
    have hexp : w * (k + 1) = w * k + w := Nat.mul_succ w k
    rw [hexp] at h
    by_cases hle : p + w ≤ b.length
    · obtain ⟨v, hv⟩ := readSignedLE_ok_of_le (w := w) (b := b) (p := p) hle
      have hk : 0 < k := by
        by_contra hk0
        have hk1 : k = 0 := by omega
        subst hk1
        simp only [Nat.mul_zero, Nat.zero_add] at h
        omega
      have hrec := ih hk (p := p + w) (by omega)
      simp only [readCount, rbind, hv, hrec]
    · have herr := readSignedLE_eof (b := b) (p := p) hw (by omega)
      simp only [readCount, rbind, herr]

theorem readCount_unsigned_ok_of_le {w c : Nat} {b : Bytes} {p : Nat}
    (h : p + w * c ≤ b.length) :
    ∃ l, readCount c (readUnsignedLE w) b p = .ok (l, p + w * c) := by
  induction c generalizing p with
  | zero => exact ⟨[], by simp [readCount, rpure]⟩
  | succ k ih =>
    have hexp : w * (k + 1) = w * k + w := Nat.mul_succ w k
    rw [hexp] at h
    obtain ⟨v, hv⟩ := readUnsignedLE_ok_of_le (w := w) (b := b) (p := p) (by omega)
    obtain ⟨l, hl⟩ := ih (p := p + w) (by omega)
    refine ⟨v :: l, ?_⟩
    simp only [readCount, rbind, hv, hl, rpure]
    congr 2
    rw [hexp]
    omega

theorem readCount_ok_length {c : Nat} {f : Reader α} {b : Bytes} {p : Nat}
    {l : List α} {q : Nat} (h : readCount c f b p = .ok (l, q)) :
    l.length = c := by
  induction c generalizing p l with
  | zero =>
    simp only [readCount, rpure] at h
    cases h
    rfl
  | succ k ih =>
    cases hf : f b p with
    | error e =>
      simp only [readCount, rbind, hf] at h
      exact Except.noConfusion h
    | ok vp =>
      obtain ⟨v, p1⟩ := vp
      cases hr : readCount k f b p1 with
      | error e =>
        simp only [readCount, rbind, hf, hr] at h
        exact Except.noConfusion h
      | ok lp =>
        obtain ⟨vs, p2⟩ := lp
        simp only [readCount, rbind, hf, hr, rpure] at h
        cases h
        simp [ih hr]

theorem lt_length_of_drop_cons {b : Bytes} {p a : Nat} {l : List Nat}
    (h : b.drop p = a :: l) : p < b.length := by
  by_contra hge
  rw [List.drop_eq_nil_of_le (Nat.le_of_not_lt hge)] at h
  exact List.noConfusion h

theorem read_ptp_str_eof {b : Bytes} {p n : Nat} {tail : List Nat}
    (hd : b.drop p = n :: tail) (hn : 0 < n)
    (hlen : b.length < p + 1 + 2 * n) :
    read_ptp_str b p = .error (.Malformed "Unexpected end of message") := by
  have hp : p < b.length := lt_length_of_drop_cons hd
  have hu8 := read_u8_drop hd
  by_cases hA : p + 1 + 2 * (n - 1) ≤ b.length
  · obtain ⟨l, hl⟩ :=
      readCount_unsigned_ok_of_le (w := 2) (c := n - 1) (b := b) (p := p + 1) hA
    have htrail := readUnsignedLE_eof (w := 2) (b := b) (p := p + 1 + 2 * (n - 1))
      (by norm_num) (by omega)
    simp only [read_ptp_str, rbind, hu8, hn, if_true, hl, htrail]
  · have hn2 : 0 < n - 1 := by omega
    have hcnt := readCount_unsigned_eof (w := 2) (c := n - 1) (b := b) (p := p + 1)
      (by norm_num) hn2 (by omega)
    simp only [read_ptp_str, rbind, hu8, hn, if_true, hcnt]

/-! ### Prefix stability and error classification of the decoders

A reader is *prefix stable* when a successful parse stays within the buffer
and is unchanged by appending extra bytes (cursor reads are deterministic
on the consumed prefix), and *Malformed-only* when every error it can
produce is `Error.Malformed`.  Together these settle how the whole-buffer
decoders behave on buffers one byte longer or shorter than an exact
encoding. -/

def PrefixStable (r : Reader α) : Prop :=
  ∀ b p v q, p ≤ b.length → r b p = .ok (v, q) →
    q ≤ b.length ∧ ∀ ext, r (b ++ ext) p = .ok (v, q)

def MalformedOnly (r : Reader α) : Prop :=
  ∀ b p e, r b p = .error e → ∃ m, e = .Malformed m

theorem ps_rpure (a : α) : PrefixStable (rpure a) := by
  intro b p v q hp hok
  simp only [rpure] at hok
  cases hok
  exact ⟨hp, fun ext => rfl⟩

theorem ps_rbind {r : Reader α} {f : α → Reader β} (hr : PrefixStable r)
    (hf : ∀ v, PrefixStable (f v)) : PrefixStable (rbind r f) := by
  intro b p v q hp hok
  simp only [rbind] at hok
  cases h1 : r b p with
  | error e => rw [h1] at hok; exact Except.noConfusion hok
  | ok vp =>
    obtain ⟨v1, q1⟩ := vp
    rw [h1] at hok
    obtain ⟨hq1, hext1⟩ := hr b p v1 q1 hp h1
    obtain ⟨hq2, hext2⟩ := hf v1 b q1 v q hq1 hok
    refine ⟨hq2, fun ext => ?_⟩
    simp only [rbind, hext1 ext, hext2 ext]

theorem ps_read_u8 : PrefixStable read_u8 := by
  intro b p v q hp hok
  simp only [read_u8] at hok
  by_cases hlt : p < b.length
  · rw [dif_pos hlt] at hok
    cases hok
    refine ⟨hlt, fun ext => ?_⟩
    have hlt2 : p < (b ++ ext).length := by
      rw [List.length_append]
      omega
    have hq : (b ++ ext)[p]? = b[p]? := by
      rw [List.getElem?_append, if_pos hlt]
    rw [List.getElem?_eq_getElem hlt2, List.getElem?_eq_getElem hlt,
      Option.some_inj] at hq
    unfold read_u8
    rw [dif_pos hlt2]
    simp only [List.get_eq_getElem, hq]
  · rw [dif_neg hlt] at hok
    exact Except.noConfusion hok

theorem ps_readUnsignedLE (w : Nat) : PrefixStable (readUnsignedLE w) := by
  induction w with
  | zero => exact ps_rpure 0
  | succ k ih =>
    exact ps_rbind ps_read_u8 fun x =>
      ps_rbind ih fun y => ps_rpure (x + 256 * y)

theorem ps_readSignedLE (w : Nat) : PrefixStable (readSignedLE w) :=
  ps_rbind (ps_readUnsignedLE w) fun n => ps_rpure (toSigned w n)

theorem ps_readCount {f : Reader α} (hf : PrefixStable f) (n : Nat) :
    PrefixStable (readCount n f) := by
  induction n with
  | zero => exact ps_rpure []
  | succ k ih =>
    exact ps_rbind hf fun v => ps_rbind ih fun vs => ps_rpure (v :: vs)

theorem ps_read_ptp_vec {f : Reader α} (hf : PrefixStable f) :
    PrefixStable (read_ptp_vec f) :=
  ps_rbind (ps_readUnsignedLE 4) fun len => ps_readCount hf len

theorem ps_utf16Step (data : List Nat) : PrefixStable (utf16Step data) := by
  intro b p v q hp hok
  unfold utf16Step at hok
  cases hu : utf16DecodeChars data with
  | some cs =>
    rw [hu] at hok
    cases hok
    refine ⟨hp, fun ext => ?_⟩
    unfold utf16Step
    rw [hu]
  | none =>
    rw [hu] at hok
    exact Except.noConfusion hok

theorem ps_read_ptp_str : PrefixStable read_ptp_str := by
  unfold read_ptp_str
  refine ps_rbind ps_read_u8 fun len => ?_
  by_cases hlen : len > 0
  · rw [if_pos hlen]
    exact ps_rbind (ps_readCount (ps_readUnsignedLE 2) (len - 1)) fun data =>
      ps_rbind (ps_readUnsignedLE 2) fun _ => ps_utf16Step data
  · rw [if_neg hlen]
    exact ps_rpure ""

theorem mo_rpure (a : α) : MalformedOnly (rpure a) := by
  intro b p e h
  exact Except.noConfusion h

theorem mo_rbind {r : Reader α} {f : α → Reader β} (hr : MalformedOnly r)
    (hf : ∀ v, MalformedOnly (f v)) : MalformedOnly (rbind r f) := by
  intro b p e h
  simp only [rbind] at h
  cases h1 : r b p with
  | error e1 =>
    rw [h1] at h
    have h2 := hr b p e1 h1
    have he : e = e1 := by cases h; rfl
    rw [he]
    exact h2
  | ok vp =>
    obtain ⟨v1, q1⟩ := vp
    rw [h1] at h
    exact hf v1 b q1 e h

theorem mo_read_u8 : MalformedOnly read_u8 := by
  intro b p e h
  simp only [read_u8] at h
  by_cases hlt : p < b.length
  · rw [dif_pos hlt] at h
    exact Except.noConfusion h
  · rw [dif_neg hlt] at h
    cases h
    exact ⟨"Unexpected end of message", rfl⟩

theorem mo_readUnsignedLE (w : Nat) : MalformedOnly (readUnsignedLE w) := by
  induction w with
  | zero => exact mo_rpure 0
  | succ k ih =>
    exact mo_rbind mo_read_u8 fun x =>
      mo_rbind ih fun y => mo_rpure (x + 256 * y)

theorem mo_readSignedLE (w : Nat) : MalformedOnly (readSignedLE w) :=
  mo_rbind (mo_readUnsignedLE w) fun n => mo_rpure (toSigned w n)

theorem mo_readCount {f : Reader α} (hf : MalformedOnly f) (n : Nat) :
    MalformedOnly (readCount n f) := by
  induction n with
  | zero => exact mo_rpure []
  | succ k ih =>
    exact mo_rbind hf fun v => mo_rbind ih fun vs => mo_rpure (v :: vs)

theorem mo_read_ptp_vec {f : Reader α} (hf : MalformedOnly f) :
    MalformedOnly (read_ptp_vec f) :=
  mo_rbind (mo_readUnsignedLE 4) fun len => mo_readCount hf len

theorem mo_utf16Step (data : List Nat) : MalformedOnly (utf16Step data) := by
  intro b p e h
  unfold utf16Step at h
  cases hu : utf16DecodeChars data with
  | some cs =>
    rw [hu] at h
    exact Except.noConfusion h
  | none =>
    rw [hu] at h
    have he : e = .Malformed (invalidUtf16Msg data) := by cases h; rfl
    exact ⟨invalidUtf16Msg data, he⟩

theorem mo_read_ptp_str : MalformedOnly read_ptp_str := by
  unfold read_ptp_str
  refine mo_rbind mo_read_u8 fun len => ?_
  by_cases hlen : len > 0
  · rw [if_pos hlen]
    exact mo_rbind (mo_readCount (mo_readUnsignedLE 2) (len - 1)) fun data =>
      mo_rbind (mo_readUnsignedLE 2) fun _ => mo_utf16Step data
  · rw [if_neg hlen]
    exact mo_rpure ""

theorem ps_StorageInfo_decode : PrefixStable StorageInfo.decode := by
  unfold StorageInfo.decode read_ptp_u16 read_ptp_u64 read_ptp_u32
  refine ps_rbind (ps_readUnsignedLE 2) fun v1 => ?_
  refine ps_rbind (ps_readUnsignedLE 2) fun v2 => ?_
  refine ps_rbind (ps_readUnsignedLE 2) fun v3 => ?_
  refine ps_rbind (ps_readUnsignedLE 8) fun v4 => ?_
  refine ps_rbind (ps_readUnsignedLE 8) fun v5 => ?_
  refine ps_rbind (ps_readUnsignedLE 4) fun v6 => ?_
  refine ps_rbind ps_read_ptp_str fun v7 => ?_
  refine ps_rbind ps_read_ptp_str fun v8 => ?_
  exact ps_rpure _

theorem mo_StorageInfo_decode : MalformedOnly StorageInfo.decode := by
  unfold StorageInfo.decode read_ptp_u16 read_ptp_u64 read_ptp_u32
  refine mo_rbind (mo_readUnsignedLE 2) fun v1 => ?_
  refine mo_rbind (mo_readUnsignedLE 2) fun v2 => ?_
  refine mo_rbind (mo_readUnsignedLE 2) fun v3 => ?_
  refine mo_rbind (mo_readUnsignedLE 8) fun v4 => ?_
  refine mo_rbind (mo_readUnsignedLE 8) fun v5 => ?_
  refine mo_rbind (mo_readUnsignedLE 4) fun v6 => ?_
  refine mo_rbind mo_read_ptp_str fun v7 => ?_
  refine mo_rbind mo_read_ptp_str fun v8 => ?_
  exact mo_rpure _

theorem ps_DeviceInfo_decodeReader : PrefixStable DeviceInfo.decodeReader := by
  unfold DeviceInfo.decodeReader read_ptp_u16 read_ptp_u32 read_ptp_u16_vec
  refine ps_rbind (ps_readUnsignedLE 2) fun v1 => ?_
  refine ps_rbind (ps_readUnsignedLE 4) fun v2 => ?_
  refine ps_rbind (ps_readUnsignedLE 2) fun v3 => ?_
  refine ps_rbind ps_read_ptp_str fun v4 => ?_
  refine ps_rbind (ps_readUnsignedLE 2) fun v5 => ?_
  refine ps_rbind (ps_read_ptp_vec (by unfold read_ptp_u16; exact ps_readUnsignedLE 2)) fun v6 => ?_
  refine ps_rbind (ps_read_ptp_vec (by unfold read_ptp_u16; exact ps_readUnsignedLE 2)) fun v7 => ?_
  refine ps_rbind (ps_read_ptp_vec (by unfold read_ptp_u16; exact ps_readUnsignedLE 2)) fun v8 => ?_
  refine ps_rbind (ps_read_ptp_vec (by unfold read_ptp_u16; exact ps_readUnsignedLE 2)) fun v9 => ?_
  refine ps_rbind (ps_read_ptp_vec (by unfold read_ptp_u16; exact ps_readUnsignedLE 2)) fun v10 => ?_
  refine ps_rbind ps_read_ptp_str fun v11 => ?_
  refine ps_rbind ps_read_ptp_str fun v12 => ?_
  refine ps_rbind ps_read_ptp_str fun v13 => ?_
  refine ps_rbind ps_read_ptp_str fun v14 => ?_
  exact ps_rpure _

theorem mo_DeviceInfo_decodeReader : MalformedOnly DeviceInfo.decodeReader := by
  unfold DeviceInfo.decodeReader read_ptp_u16 read_ptp_u32 read_ptp_u16_vec
  refine mo_rbind (mo_readUnsignedLE 2) fun v1 => ?_
  refine mo_rbind (mo_readUnsignedLE 4) fun v2 => ?_
  refine mo_rbind (mo_readUnsignedLE 2) fun v3 => ?_
  refine mo_rbind mo_read_ptp_str fun v4 => ?_
  refine mo_rbind (mo_readUnsignedLE 2) fun v5 => ?_
  refine mo_rbind (mo_read_ptp_vec (by unfold read_ptp_u16; exact mo_readUnsignedLE 2)) fun v6 => ?_
  refine mo_rbind (mo_read_ptp_vec (by unfold read_ptp_u16; exact mo_readUnsignedLE 2)) fun v7 => ?_
  refine mo_rbind (mo_read_ptp_vec (by unfold read_ptp_u16; exact mo_readUnsignedLE 2)) fun v8 => ?_
  refine mo_rbind (mo_read_ptp_vec (by unfold read_ptp_u16; exact mo_readUnsignedLE 2)) fun v9 => ?_
  refine mo_rbind (mo_read_ptp_vec (by unfold read_ptp_u16; exact mo_readUnsignedLE 2)) fun v10 => ?_
  refine mo_rbind mo_read_ptp_str fun v11 => ?_
  refine mo_rbind mo_read_ptp_str fun v12 => ?_
  refine mo_rbind mo_read_ptp_str fun v13 => ?_
  refine mo_rbind mo_read_ptp_str fun v14 => ?_
  exact mo_rpure _

theorem ps_ObjectInfo_decodeReader : PrefixStable ObjectInfo.decodeReader := by
  unfold ObjectInfo.decodeReader read_ptp_u16 read_ptp_u32
  refine ps_rbind (ps_readUnsignedLE 4) fun v1 => ?_
  refine ps_rbind (ps_readUnsignedLE 2) fun v2 => ?_
  refine ps_rbind (ps_readUnsignedLE 2) fun v3 => ?_
  refine ps_rbind (ps_readUnsignedLE 4) fun v4 => ?_
  refine ps_rbind (ps_readUnsignedLE 2) fun v5 => ?_
  refine ps_rbind (ps_readUnsignedLE 4) fun v6 => ?_
  refine ps_rbind (ps_readUnsignedLE 4) fun v7 => ?_
  refine ps_rbind (ps_readUnsignedLE 4) fun v8 => ?_
  refine ps_rbind (ps_readUnsignedLE 4) fun v9 => ?_
  refine ps_rbind (ps_readUnsignedLE 4) fun v10 => ?_
  refine ps_rbind (ps_readUnsignedLE 4) fun v11 => ?_
  refine ps_rbind (ps_readUnsignedLE 4) fun v12 => ?_
  refine ps_rbind (ps_readUnsignedLE 2) fun v13 => ?_
  refine ps_rbind (ps_readUnsignedLE 4) fun v14 => ?_
  refine ps_rbind (ps_readUnsignedLE 4) fun v15 => ?_
  refine ps_rbind ps_read_ptp_str fun v16 => ?_
  refine ps_rbind ps_read_ptp_str fun v17 => ?_
  refine ps_rbind ps_read_ptp_str fun v18 => ?_
  refine ps_rbind ps_read_ptp_str fun v19 => ?_
  exact ps_rpure _

theorem mo_ObjectInfo_decodeReader : MalformedOnly ObjectInfo.decodeReader := by
  unfold ObjectInfo.decodeReader read_ptp_u16 read_ptp_u32
  refine mo_rbind (mo_readUnsignedLE 4) fun v1 => ?_
  refine mo_rbind (mo_readUnsignedLE 2) fun v2 => ?_
  refine mo_rbind (mo_readUnsignedLE 2) fun v3 => ?_
  refine mo_rbind (mo_readUnsignedLE 4) fun v4 => ?_
  refine mo_rbind (mo_readUnsignedLE 2) fun v5 => ?_
  refine mo_rbind (mo_readUnsignedLE 4) fun v6 => ?_
  refine mo_rbind (mo_readUnsignedLE 4) fun v7 => ?_
  refine mo_rbind (mo_readUnsignedLE 4) fun v8 => ?_
  refine mo_rbind (mo_readUnsignedLE 4) fun v9 => ?_
  refine mo_rbind (mo_readUnsignedLE 4) fun v10 => ?_
  refine mo_rbind (mo_readUnsignedLE 4) fun v11 => ?_
  refine mo_rbind (mo_readUnsignedLE 4) fun v12 => ?_
  refine mo_rbind (mo_readUnsignedLE 2) fun v13 => ?_
  refine mo_rbind (mo_readUnsignedLE 4) fun v14 => ?_
  refine mo_rbind (mo_readUnsignedLE 4) fun v15 => ?_
  refine mo_rbind mo_read_ptp_str fun v16 => ?_
  refine mo_rbind mo_read_ptp_str fun v17 => ?_
  refine mo_rbind mo_read_ptp_str fun v18 => ?_
  refine mo_rbind mo_read_ptp_str fun v19 => ?_
  exact mo_rpure _

/-- A prefix-stable whole-buffer decode that consumed the exact buffer still
succeeds, with the same value and final position, on the buffer extended by
one byte — so a subsequent `expect_end` is the only guard against trailing
garbage. -/
theorem reader_too_long {r : Reader α} (hps : PrefixStable r) {b : Bytes}
    {v : α} (hexact : r b 0 = .ok (v, b.length)) (x : Nat) :
    r (b ++ [x]) 0 = .ok (v, b.length) :=
  (hps b 0 v b.length (Nat.zero_le _) hexact).2 [x]

/-- A prefix-stable, Malformed-only decode that consumed the exact buffer
fails with some `Malformed` error on the buffer with its last byte removed
(it cannot succeed: by prefix stability a success would also be the unique
result on the full buffer, at a position below the full length). -/
theorem reader_too_short {r : Reader α} (hps : PrefixStable r)
    (hmo : MalformedOnly r) {b : Bytes} {v : α} (hb : b ≠ [])
    (hexact : r b 0 = .ok (v, b.length)) :
    ∃ m, r b.dropLast 0 = .error (.Malformed m) := by
  cases hres : r b.dropLast 0 with
  | error e =>
    obtain ⟨m, hm⟩ := hmo b.dropLast 0 e hres
    exact ⟨m, by rw [hm]⟩
  | ok wq =>
    obtain ⟨w, q⟩ := wq
    obtain ⟨hq, hext⟩ := hps b.dropLast 0 w q (Nat.zero_le _) hres
    have hfull := hext [b.getLast hb]
    rw [List.dropLast_append_getLast hb] at hfull
    rw [hexact] at hfull
    have hpair := Except.ok.inj hfull
    have hqeq : b.length = q := congrArg Prod.snd hpair
    have hlen : b.dropLast.length = b.length - 1 := List.length_dropLast b
    have hpos : 0 < b.length := List.length_pos.mpr hb
    omega

/-- `expect_end` after an exact decode rejects one extra trailing byte with
the two lengths in the message. -/
theorem parseFull_too_long {r : Reader α} (hps : PrefixStable r) {b : Bytes}
    {v : α} (hexact : r b 0 = .ok (v, b.length)) (x : Nat) :
    parseFull r (b ++ [x]) =
      .error (.Malformed (expectEndMsg (b.length + 1) b.length)) := by
  have hr := reader_too_long hps hexact x
  have hlen : (b ++ [x]).length = b.length + 1 := by simp
  have hne2 : b.length + 1 ≠ b.length := by omega
  simp only [parseFull, rbind, hr, expect_end, hlen, if_neg hne2]

theorem parseFull_too_short {r : Reader α} (hps : PrefixStable r)
    (hmo : MalformedOnly r) {b : Bytes} {v : α} (hb : b ≠ [])
    (hexact : r b 0 = .ok (v, b.length)) :
    ∃ m, parseFull r b.dropLast = .error (.Malformed m) := by
  obtain ⟨m, hm⟩ := reader_too_short hps hmo hb hexact
  exact ⟨m, by simp only [parseFull, rbind, hm]⟩

/-! ### Lemmas about the write side of the engine -/

theorem chunksOfAux_flatten {n : Nat} (hn : 0 < n) :
    ∀ (fuel : Nat) (l : List α), l.length ≤ fuel →
      (chunksOfAux n fuel l).flatten = l := by
  intro fuel
  induction fuel with
  | zero =>
    intro l hl
    have : l = [] := List.length_eq_zero.mp (Nat.le_zero.mp hl)
    subst this
    rfl
  | succ k ih =>
    intro l hl
    cases l with
    | nil => rfl
    | cons x xs =>
      have hrec := ih ((x :: xs).drop n) (by
        rw [List.length_drop]
        simp only [List.length_cons] at hl ⊢
        omega)
      simp only [chunksOfAux, List.flatten_cons, hrec, List.take_append_drop]

theorem chunksOf_flatten {n : Nat} (hn : 0 < n) (l : List α) :
    (chunksOf n l).flatten = l :=
  chunksOfAux_flatten hn l.length l (Nat.le_refl _)

/-- All bulk writes of one phase, concatenated, are the 12-byte header
followed by the whole payload. -/
theorem write_txn_phase_flatten (kind : ContainerType) (code tid : Nat)
    (payload : List Nat) :
    (write_txn_phase kind code tid payload).flatten =
      leBytes 4 ((payload.length + CONTAINER_INFO_SIZE) % 2 ^ 32) ++
      leBytes 2 kind.toU16 ++
      leBytes 2 (code % 2 ^ 16) ++
      leBytes 4 (tid % 2 ^ 32) ++
      payload := by
  unfold write_txn_phase
  simp only [List.flatten_cons]
  rw [chunksOf_flatten (by unfold CHUNK_SIZE; norm_num)]
  simp only [List.append_assoc, List.take_append_drop]

/-! ### Lemmas about the transaction ids of successive calls -/

theorem stateAfterCalls_mod (n : Nat) :
    (stateAfterCalls n).current_tid = n % 2 ^ 32 := by
  induction n with
  | zero => rfl
  | succ k ih =>
    show ((stateAfterCalls k).current_tid + 1) % 2 ^ 32 = (k + 1) % 2 ^ 32
    have h1 : 1 % 2 ^ 32 = 1 := by norm_num
    rw [ih]
    conv_rhs => rw [Nat.add_mod, h1]

theorem tidUsedByCall_mod (n : Nat) : tidUsedByCall n = n % 2 ^ 32 :=
  stateAfterCalls_mod n

/-! ### Exact-consumption lemmas for the datatype codec -/

theorem length_encodeEachU (w : Nat) (l : List Nat) :
    (encodeEachU w l).length = w * l.length := by
  induction l with
  | nil => simp [encodeEachU]
  | cons x xs ih =>
    simp only [encodeEachU, List.length_append, length_leBytes, ih,
      List.length_cons]
    ring

theorem length_encodeEachI (w : Nat) (l : List Int) :
    (encodeEachI w l).length = w * l.length := by
  induction l with
  | nil => simp [encodeEachI]
  | cons x xs ih =>
    simp only [encodeEachI, List.length_append, length_leBytesSigned, ih,
      List.length_cons]
    ring

theorem rbind_map_exact {r : Reader α} {g : α → β} {b : Bytes} {v : α}
    {q : Nat} (h : r b 0 = .ok (v, q)) :
    (rbind r fun x => rpure (g x)) b 0 = .ok (g v, q) := by
  simp only [rbind, h, rpure]

theorem readUnsignedLE_exact {w x : Nat} (hx : x < 256 ^ w) :
    readUnsignedLE w (leBytes w x) 0 = .ok (x, (leBytes w x).length) := by
  rw [length_leBytes]
  have hd : (leBytes w x).drop 0 = leBytes w x ++ [] := by simp
  have h := readUnsignedLE_drop hx hd
  rwa [Nat.zero_add] at h

theorem readSignedLE_exact {w : Nat} (hw : 0 < w) {x : Int}
    (h1 : -(2 ^ (8 * w - 1)) ≤ x) (h2 : x < 2 ^ (8 * w - 1)) :
    readSignedLE w (leBytesSigned w x) 0 = .ok (x, (leBytesSigned w x).length) := by
  rw [length_leBytesSigned]
  have hd : (leBytesSigned w x).drop 0 = leBytesSigned w x ++ [] := by simp
  have h := readSignedLE_drop hw h1 h2 hd
  rwa [Nat.zero_add] at h

theorem read_ptp_vec_unsigned_exact {w : Nat} {l : List Nat}
    (hlen : l.length < 2 ^ 32) (hl : ∀ x ∈ l, x < 256 ^ w) :
    read_ptp_vec (readUnsignedLE w)
      (leBytes 4 (l.length % 2 ^ 32) ++ encodeEachU w l) 0 =
    .ok (l, (leBytes 4 (l.length % 2 ^ 32) ++ encodeEachU w l).length) := by
  set b := leBytes 4 (l.length % 2 ^ 32) ++ encodeEachU w l with hb
  have hcv : l.length % 2 ^ 32 < 256 ^ 4 := by
    have := Nat.mod_lt l.length (show 0 < 2 ^ 32 by norm_num)
    norm_num at this ⊢
    omega
  have hd0 : b.drop 0 = leBytes 4 (l.length % 2 ^ 32) ++ encodeEachU w l := by
    simp [hb]
  have hd0e : b.drop 0 = leBytes 4 (l.length % 2 ^ 32) ++ (encodeEachU w l ++ []) := by
    rw [hd0, List.append_nil]
  have hcount := readUnsignedLE_drop (b := b) (p := 0) hcv hd0e
  have hd4 : b.drop 4 = encodeEachU w l ++ [] := by
    have h := drop_append hd0e
    rwa [Nat.zero_add, length_leBytes] at h
  have helems := readCount_unsigned_drop hl (b := b) (p := 4) hd4
  have hmod : l.length % 2 ^ 32 = l.length := Nat.mod_eq_of_lt hlen
  have hblen : b.length = 4 + w * l.length := by
    rw [hb, List.length_append, length_leBytes, length_encodeEachU]
  simp only [read_ptp_vec, rbind, Nat.zero_add] at hcount ⊢
  rw [hcount, hmod]
  show readCount l.length (readUnsignedLE w) b 4 = .ok (l, b.length)
  rw [helems, hblen]

theorem read_ptp_vec_signed_exact {w : Nat} (hw : 0 < w) {l : List Int}
    (hlen : l.length < 2 ^ 32)
    (hl : ∀ x ∈ l, -(2 ^ (8 * w - 1)) ≤ x ∧ x < 2 ^ (8 * w - 1)) :
    read_ptp_vec (readSignedLE w)
      (leBytes 4 (l.length % 2 ^ 32) ++ encodeEachI w l) 0 =
    .ok (l, (leBytes 4 (l.length % 2 ^ 32) ++ encodeEachI w l).length) := by
  set b := leBytes 4 (l.length % 2 ^ 32) ++ encodeEachI w l with hb
  have hcv : l.length % 2 ^ 32 < 256 ^ 4 := by
    have := Nat.mod_lt l.length (show 0 < 2 ^ 32 by norm_num)
    norm_num at this ⊢
    omega
  have hd0e : b.drop 0 = leBytes 4 (l.length % 2 ^ 32) ++ (encodeEachI w l ++ []) := by
    simp [hb]
  have hcount := readUnsignedLE_drop (b := b) (p := 0) hcv hd0e
  have hd4 : b.drop 4 = encodeEachI w l ++ [] := by
    have h := drop_append hd0e
    rwa [Nat.zero_add, length_leBytes] at h
  have helems := readCount_signed_drop hw hl (b := b) (p := 4) hd4
  have hmod : l.length % 2 ^ 32 = l.length := Nat.mod_eq_of_lt hlen
  have hblen : b.length = 4 + w * l.length := by
    rw [hb, List.length_append, length_leBytes, length_encodeEachI]
  simp only [read_ptp_vec, rbind, Nat.zero_add] at hcount ⊢
  rw [hcount, hmod]
  show readCount l.length (readSignedLE w) b 4 = .ok (l, b.length)
  rw [helems, hblen]

/-! ### Claim theorems -/

/-- **C7 (amended).**  For every scalar tag `0x0001`–`0x000A` and every
array tag `0x4001`–`0x400A` (the tags `DataType.tagOf` assigns), and every
value `v` of the corresponding `DataType` variant whose payloads fit their
Rust machine widths and — for the array variants — whose length is below
2^32, `DataType::read_type` applied to a cursor over `DataType::encode v`
returns exactly `v`, consuming the whole encoding.  The length bound is
necessary: the u32 count prefix is `val.len() as u32`, which truncates for
longer arrays (see the counterexample below). -/
theorem read_type_encode_roundtrip (v : DataType) (t : Nat)
    (htag : v.tagOf = some t) (hrange : v.inRange) :
    DataType.read_type t v.encode 0 = .ok (v, v.encode.length) := by
  cases v with
  | UNDEF => exact Option.noConfusion htag
  | STR s => exact Option.noConfusion htag
  | INT8 x =>
    obtain rfl : t = 0x0001 := (Option.some.inj htag).symm
    exact rbind_map_exact (readSignedLE_exact (by norm_num) hrange.1 hrange.2)
  | UINT8 x =>
    obtain rfl : t = 0x0002 := (Option.some.inj htag).symm
    exact rbind_map_exact (readUnsignedLE_exact (by rw [pow256]; exact hrange))
  | INT16 x =>
    obtain rfl : t = 0x0003 := (Option.some.inj htag).symm
    exact rbind_map_exact (readSignedLE_exact (by norm_num) hrange.1 hrange.2)
  | UINT16 x =>
    obtain rfl : t = 0x0004 := (Option.some.inj htag).symm
    exact rbind_map_exact (readUnsignedLE_exact (by rw [pow256]; exact hrange))
  | INT32 x =>
    obtain rfl : t = 0x0005 := (Option.some.inj htag).symm
    exact rbind_map_exact (readSignedLE_exact (by norm_num) hrange.1 hrange.2)
  | UINT32 x =>
    obtain rfl : t = 0x0006 := (Option.some.inj htag).symm
    exact rbind_map_exact (readUnsignedLE_exact (by rw [pow256]; exact hrange))
  | INT64 x =>
    obtain rfl : t = 0x0007 := (Option.some.inj htag).symm
    exact rbind_map_exact (readSignedLE_exact (by norm_num) hrange.1 hrange.2)
  | UINT64 x =>
    obtain rfl : t = 0x0008 := (Option.some.inj htag).symm
    exact rbind_map_exact (readUnsignedLE_exact (by rw [pow256]; exact hrange))
  | INT128 x =>
    obtain rfl : t = 0x0009 := (Option.some.inj htag).symm
    exact rbind_map_exact (readSignedLE_exact (by norm_num) hrange.1 hrange.2)
  | UINT128 x =>
    obtain rfl : t = 0x000A := (Option.some.inj htag).symm
    exact rbind_map_exact (readUnsignedLE_exact (by rw [pow256]; exact hrange))
  | AINT8 l =>
    obtain rfl : t = 0x4001 := (Option.some.inj htag).symm
    exact rbind_map_exact (read_ptp_vec_signed_exact (by norm_num) hrange.1 hrange.2)
  | AUINT8 l =>
    obtain rfl : t = 0x4002 := (Option.some.inj htag).symm
    exact rbind_map_exact (read_ptp_vec_unsigned_exact hrange.1
      (fun x hx => by rw [pow256]; exact hrange.2 x hx))
  | AINT16 l =>
    obtain rfl : t = 0x4003 := (Option.some.inj htag).symm
    exact rbind_map_exact (read_ptp_vec_signed_exact (by norm_num) hrange.1 hrange.2)
  | AUINT16 l =>
    obtain rfl : t = 0x4004 := (Option.some.inj htag).symm
    exact rbind_map_exact (read_ptp_vec_unsigned_exact hrange.1
      (fun x hx => by rw [pow256]; exact hrange.2 x hx))
  | AINT32 l =>
    obtain rfl : t = 0x4005 := (Option.some.inj htag).symm
    exact rbind_map_exact (read_ptp_vec_signed_exact (by norm_num) hrange.1 hrange.2)
  | AUINT32 l =>
    obtain rfl : t = 0x4006 := (Option.some.inj htag).symm
    exact rbind_map_exact (read_ptp_vec_unsigned_exact hrange.1
      (fun x hx => by rw [pow256]; exact hrange.2 x hx))
  | AINT64 l =>
    obtain rfl : t = 0x4007 := (Option.some.inj htag).symm
    exact rbind_map_exact (read_ptp_vec_signed_exact (by norm_num) hrange.1 hrange.2)
  | AUINT64 l =>
    obtain rfl : t = 0x4008 := (Option.some.inj htag).symm
    exact rbind_map_exact (read_ptp_vec_unsigned_exact hrange.1
      (fun x hx => by rw [pow256]; exact hrange.2 x hx))
  | AINT128 l =>
    obtain rfl : t = 0x4009 := (Option.some.inj htag).symm
    exact rbind_map_exact (read_ptp_vec_signed_exact (by norm_num) hrange.1 hrange.2)
  | AUINT128 l =>
    obtain rfl : t = 0x400A := (Option.some.inj htag).symm
    exact rbind_map_exact (read_ptp_vec_unsigned_exact hrange.1
      (fun x hx => by rw [pow256]; exact hrange.2 x hx))

/-- **C2** (evaluation of the code at the claim's inputs).  `DataType::encode`
writes the string length prefix as `(val.len() as u8) * 2 + 1` with
`val.len()` the UTF-8 byte length, so `STR("ABC")` encodes with leading byte
`0x07` — not the `0x04` the spec's scenario S3 states — and `STR("")`
encodes to the single byte `0x01`, not `0x00`. -/
theorem encode_str_bytes :
    DataType.encode (.STR "ABC") =
      [0x07, 0x41, 0x00, 0x42, 0x00, 0x43, 0x00, 0x00, 0x00] ∧
    DataType.encode (.STR "") = [0x01] := by
  constructor
  · decide
  · decide

/-- **C3** (evaluation of the code at failing inputs).  Decoding the string
encoder's output is *not* the identity: the encoder's length prefix
(`2·utf8Len + 1`) disagrees with the decoder's convention (character count
including the NUL), so the round trip fails with the EOF `Malformed` error
already for `""` and `"A"`.  The byte-length part of the claim
(`1 + 2·(codeUnits + 1)` when non-empty, `1` when empty) does hold. -/
theorem read_write_str_not_identity :
    read_ptp_str (DataType.encode (.STR "")) 0 =
      .error (.Malformed "Unexpected end of message") ∧
    read_ptp_str (DataType.encode (.STR "A")) 0 =
      .error (.Malformed "Unexpected end of message") ∧
    (DataType.encode (.STR "A")).length = 1 + 2 * (1 + 1) ∧
    (DataType.encode (.STR "")).length = 1 := by
  refine ⟨by rfl, by rfl, by decide, by decide⟩

/-- **C5** (evaluation of the code at the failing input).  `ContainerInfo::parse`
performs no `len ≥ 12` check: on a header whose length field is 0 it returns
a `ContainerInfo` whose `payload_len` is the wrapped value `2^64 - 12`
(release-profile `usize` subtraction; a debug build panics), instead of the
`Malformed` error the claim requires. -/
theorem containerinfo_parse_no_len_check :
    ContainerInfo.parse [0, 0, 0, 0, 1, 0, 0x01, 0x10, 0, 0, 0, 0] 0 =
      .ok (⟨2 ^ 64 - 12, .Command, 0x1001, 0⟩, 12) := by rfl

/-- **C10.**  `get_objecthandles` and `get_numobjects` pass their three u32
parameters to `command` in the order `[storage_id, filter.unwrap_or(0),
handle_id]` — format filter before parent handle, absent filter as 0 — and
the Command phase serializes them in that order as little-endian u32. -/
theorem get_params_wire_order :
    ∀ (storage_id handle_id : Nat) (filter : Option Nat),
      (get_objecthandles_params storage_id handle_id filter =
        [storage_id, filter.getD 0, handle_id]) ∧
      (get_numobjects_params storage_id handle_id filter =
        [storage_id, filter.getD 0, handle_id]) ∧
      (request_payload (get_objecthandles_params storage_id handle_id filter) =
        leBytes 4 (storage_id % 2 ^ 32) ++ leBytes 4 (filter.getD 0 % 2 ^ 32) ++
          leBytes 4 (handle_id % 2 ^ 32)) ∧
      (get_objecthandles_params storage_id handle_id none =
        [storage_id, 0, handle_id]) ∧
      (get_numobjects_params storage_id handle_id none =
        [storage_id, 0, handle_id]) ∧
      (∀ (st : CameraState) recv,
        (get_objecthandles_command st storage_id handle_id filter recv).1.writes =
          write_txn_phase .Command GetObjectHandles st.current_tid
            (request_payload [storage_id, filter.getD 0, handle_id])) ∧
      (∀ (st : CameraState) recv,
        (get_numobjects_command st storage_id handle_id filter recv).1.writes =
          write_txn_phase .Command GetNumObjects st.current_tid
            (request_payload [storage_id, filter.getD 0, handle_id])) := by
  intro storage_id handle_id filter
  refine ⟨rfl, rfl, ?_, rfl, rfl, ?_, ?_⟩
  · simp [request_payload, List.append_assoc]
  · intro st recv
    simp [get_objecthandles_command, Camera.command, get_objecthandles_params]
  · intro st recv
    simp [get_numobjects_command, Camera.command, get_numobjects_params]

/-- A decoded little-endian u32 prefix of a transmitted byte stream. -/
theorem readUnsignedLE_front {w x : Nat} (hx : x < 256 ^ w) (suf : List Nat) :
    readUnsignedLE w (leBytes w x ++ suf) 0 = .ok (x, w) := by
  have hd : (leBytes w x ++ suf).drop 0 = leBytes w x ++ suf := rfl
  have h := readUnsignedLE_drop hx hd
  rwa [Nat.zero_add] at h

/-- **C8 (amended).**  Every phase write emits one logical container: the
concatenation of the transmitted buffers is the 12-byte little-endian
header followed by the whole payload, however the payload is chunked — and
the u32 length field holds `(12 + payload.size) mod 2^32`, which equals
`12 + payload.size` whenever that sum fits in a u32. -/
theorem write_txn_phase_header (kind : ContainerType) (code tid : Nat)
    (payload : List Nat) :
    ((write_txn_phase kind code tid payload).flatten =
      leBytes 4 ((payload.length + CONTAINER_INFO_SIZE) % 2 ^ 32) ++
      leBytes 2 kind.toU16 ++ leBytes 2 (code % 2 ^ 16) ++
      leBytes 4 (tid % 2 ^ 32) ++ payload) ∧
    (payload.length + CONTAINER_INFO_SIZE < 2 ^ 32 →
      readUnsignedLE 4 (write_txn_phase kind code tid payload).flatten 0 =
        .ok (payload.length + CONTAINER_INFO_SIZE, 4)) := by
  refine ⟨write_txn_phase_flatten kind code tid payload, fun h => ?_⟩
  rw [write_txn_phase_flatten]
  simp only [List.append_assoc]
  rw [Nat.mod_eq_of_lt h]
  refine readUnsignedLE_front ?_ _
  have h4 : (256 : Nat) ^ 4 = 2 ^ 32 := by norm_num
  omega

/-- Witness for C8: a three-byte payload yields length field 15. -/
theorem write_txn_phase_header_witness :
    readUnsignedLE 4 (write_txn_phase .Command 0x1001 0 [9, 9, 9]).flatten 0 =
      .ok (15, 4) := by
  have h := (write_txn_phase_header .Command 0x1001 0 [9, 9, 9]).2 (by decide)
  simpa [CONTAINER_INFO_SIZE] using h

/-- Counterexample to C8 as stated: for a payload of `2^32 - 12` bytes the
u32 length field wraps to 0, so it does not equal `12 + payload.size`. -/
theorem write_txn_phase_len_wraps :
    readUnsignedLE 4
      (write_txn_phase .Data 0x100D 0 (List.replicate (2 ^ 32 - 12) 0)).flatten 0 =
      .ok (0, 4) ∧
    (List.replicate (2 ^ 32 - 12) (0 : Nat)).length + CONTAINER_INFO_SIZE ≠ 0 := by
  constructor
  · have hmod : ((List.replicate (2 ^ 32 - 12) (0 : Nat)).length +
        CONTAINER_INFO_SIZE) % 2 ^ 32 = 0 := by
      rw [List.length_replicate]
      norm_num [CONTAINER_INFO_SIZE]
    rw [write_txn_phase_flatten, hmod]
    simp only [List.append_assoc]
    exact readUnsignedLE_front (by norm_num) _
  · rw [List.length_replicate]
    norm_num [CONTAINER_INFO_SIZE]

/-- **C4 (amended).**  `current_tid` is 0 at construction; every `command`
call — regardless of its outcome — uses the current `current_tid` as its
transaction id and increments it exactly once (wrapping mod 2^32, as the
field is a u32), so any two of the first 2^32 calls on one `Camera` use
distinct transaction ids. -/
theorem command_tid_usage :
    Camera.new_current_tid = 0 ∧
    (∀ (st : CameraState) (code : Nat) (params : List Nat)
        (data : Option (List Nat)) recv,
      (Camera.command st code params data recv).1.tidUsed = st.current_tid ∧
      (Camera.command st code params data recv).2.current_tid =
        (st.current_tid + 1) % 2 ^ 32) ∧
    (∀ i j : Nat, i < j → j < 2 ^ 32 → tidUsedByCall i ≠ tidUsedByCall j) := by
  refine ⟨rfl, fun st code params data recv => ⟨rfl, rfl⟩, ?_⟩
  intro i j hij hj heq
  rw [tidUsedByCall_mod, tidUsedByCall_mod] at heq
  rw [Nat.mod_eq_of_lt (by omega), Nat.mod_eq_of_lt hj] at heq
  omega

/-- Witness for C4: the first two calls use distinct transaction ids. -/
theorem command_tid_usage_witness :
    tidUsedByCall 0 ≠ tidUsedByCall 1 :=
  command_tid_usage.2.2 0 1 (by norm_num) (by norm_num)

/-- Counterexample to C4 as stated ("no two command calls … ever use the
same transaction id"): the u32 `current_tid` wraps, so call number 2^32
uses the same transaction id (0) as call number 0. -/
theorem tid_reused_after_wrap :
    tidUsedByCall (2 ^ 32) = tidUsedByCall 0 ∧ (2 ^ 32 : Nat) ≠ 0 := by
  refine ⟨?_, by norm_num⟩
  rw [tidUsedByCall_mod, tidUsedByCall_mod]
  norm_num

/-- **C1.**  The response loop of `Camera::command` (whose result is the
call's result), one received container at a time: a container with a
foreign tid fails the call with the exact mismatch message; a Data
container's payload replaces the retained payload; a Response with code
0x2001 (Ok) returns the retained payload; a Response with any other code
fails with `Response(code)`; any other kind is skipped. -/
theorem command_loop_behavior :
    (∀ (st : CameraState) (code : Nat) (params : List Nat)
        (data : Option (List Nat)) recv,
      (Camera.command st code params data recv).1.result =
        commandLoop st.current_tid [] recv) ∧
    (∀ (tid : Nat) (acc : List Nat) (c : ContainerInfo) (p : List Nat) rest,
      c.tid ≠ tid →
      commandLoop tid acc ((c, p) :: rest) =
        some (.error (.Malformed (mismatchMsg c.tid tid)))) ∧
    (∀ (tid : Nat) (acc : List Nat) (c : ContainerInfo) (p : List Nat) rest,
      c.tid = tid → c.kind = .Data →
      commandLoop tid acc ((c, p) :: rest) = commandLoop tid p rest) ∧
    (∀ (tid : Nat) (acc : List Nat) (c : ContainerInfo) (p : List Nat) rest,
      c.tid = tid → c.kind = .Response → c.code = 0x2001 →
      commandLoop tid acc ((c, p) :: rest) = some (.ok acc)) ∧
    (∀ (tid : Nat) (acc : List Nat) (c : ContainerInfo) (p : List Nat) rest,
      c.tid = tid → c.kind = .Response → c.code ≠ 0x2001 →
      commandLoop tid acc ((c, p) :: rest) =
        some (.error (.Response c.code))) ∧
    (∀ (tid : Nat) (acc : List Nat) (c : ContainerInfo) (p : List Nat) rest,
      c.tid = tid → (c.kind = .Command ∨ c.kind = .Event) →
      commandLoop tid acc ((c, p) :: rest) = commandLoop tid acc rest) ∧
    mismatchMsg 7 3 = "mismatched txnid 7, expecting 3" := by
  refine ⟨fun st code params data recv => rfl, ?_, ?_, ?_, ?_, ?_, by decide⟩
  · intro tid acc c p rest hne
    simp [commandLoop, ContainerInfo.belongs_to, hne]
  · intro tid acc c p rest htid hkind
    simp [commandLoop, ContainerInfo.belongs_to, htid, hkind]
  · intro tid acc c p rest htid hkind hcode
    simp [commandLoop, ContainerInfo.belongs_to, htid, hkind, hcode]
  · intro tid acc c p rest htid hkind hcode
    simp [commandLoop, ContainerInfo.belongs_to, htid, hkind, hcode]
  · intro tid acc c p rest htid hkind
    rcases hkind with hk | hk <;>
      simp [commandLoop, ContainerInfo.belongs_to, htid, hk]

/-- Witness for C1: the loop behaviours at concrete containers — the S5 tid
mismatch, a Data payload retained then returned by Response(Ok), a non-Ok
response code, and a skipped Event container. -/
theorem command_loop_behavior_witness :
    commandLoop 3 [] [(⟨0, .Response, 0x2001, 7⟩, [])] =
      some (.error (.Malformed "mismatched txnid 7, expecting 3")) ∧
    commandLoop 0 [] [(⟨1, .Data, 0x1001, 0⟩, [0xAB]),
        (⟨0, .Response, 0x2001, 0⟩, [])] =
      some (.ok [0xAB]) ∧
    commandLoop 0 [] [(⟨0, .Response, 0x2009, 0⟩, [])] =
      some (.error (.Response 0x2009)) ∧
    commandLoop 0 [] [(⟨0, .Event, 0x4002, 0⟩, []),
        (⟨0, .Response, 0x2001, 0⟩, [])] =
      some (.ok []) := by
  have h := command_loop_behavior
  refine ⟨?_, ?_, ?_, ?_⟩
  · rw [h.2.1 3 [] ⟨0, .Response, 0x2001, 7⟩ [] [] (by decide)]
    rw [h.2.2.2.2.2.2]
  · rw [h.2.2.1 0 [] ⟨1, .Data, 0x1001, 0⟩ [0xAB]
      [(⟨0, .Response, 0x2001, 0⟩, [])] rfl rfl]
    exact h.2.2.2.1 0 [0xAB] ⟨0, .Response, 0x2001, 0⟩ [] [] rfl rfl rfl
  · exact h.2.2.2.2.1 0 [] ⟨0, .Response, 0x2009, 0⟩ [] [] rfl rfl (by decide)
  · rw [h.2.2.2.2.2.1 0 [] ⟨0, .Event, 0x4002, 0⟩ []
      [(⟨0, .Response, 0x2001, 0⟩, [])] rfl (Or.inr rfl)]
    exact h.2.2.2.1 0 [] ⟨0, .Response, 0x2001, 0⟩ [] [] rfl rfl rfl

/-- **C9.**  Every PTP primitive, array, or string read that runs past the
end of its buffer returns `Malformed("Unexpected end of message")` (the
remapped `UnexpectedEof`): any unsigned or signed fixed-width read with too
few remaining bytes; an array read — with unsigned or signed elements of
any width, covering all of `read_ptp_u8_vec` … `read_ptp_i128_vec` — whose
u32 count needs more bytes than remain; a string read whose declared
character count needs more bytes than remain, or whose length byte itself
is past the end.  The decoders are total and never return a partially
filled value: a successful counted read always has exactly `count`
elements. -/
theorem reads_eof_malformed :
    (∀ (w : Nat) (b : Bytes) (p : Nat), 0 < w → b.length < p + w →
      readUnsignedLE w b p = .error (.Malformed "Unexpected end of message")) ∧
    (∀ (w : Nat) (b : Bytes) (p : Nat), 0 < w → b.length < p + w →
      readSignedLE w b p = .error (.Malformed "Unexpected end of message")) ∧
    (∀ (w c : Nat) (b : Bytes) (p : Nat), 0 < w → 0 < c →
      readUnsignedLE 4 b p = .ok (c, p + 4) → b.length < p + 4 + w * c →
      read_ptp_vec (readUnsignedLE w) b p =
        .error (.Malformed "Unexpected end of message")) ∧
    (∀ (w c : Nat) (b : Bytes) (p : Nat), 0 < w → 0 < c →
      readUnsignedLE 4 b p = .ok (c, p + 4) → b.length < p + 4 + w * c →
      read_ptp_vec (readSignedLE w) b p =
        .error (.Malformed "Unexpected end of message")) ∧
    (∀ (b : Bytes) (p n : Nat) (tail : List Nat), b.drop p = n :: tail →
      0 < n → b.length < p + 1 + 2 * n →
      read_ptp_str b p = .error (.Malformed "Unexpected end of message")) ∧
    (∀ (b : Bytes) (p : Nat), b.length ≤ p →
      read_ptp_str b p = .error (.Malformed "Unexpected end of message")) ∧
    (∀ (α : Type) (c : Nat) (f : Reader α) (b : Bytes) (p : Nat)
        (l : List α) (q : Nat),
      readCount c f b p = .ok (l, q) → l.length = c) := by
  refine ⟨?_, ?_, ?_, ?_, ?_, ?_, ?_⟩
  · intro w b p hw h
    exact readUnsignedLE_eof hw h
  · intro w b p hw h
    exact readSignedLE_eof hw h
  · intro w c b p hw hc hcount h
    have helems := readCount_unsigned_eof (w := w) (c := c) (b := b)
      (p := p + 4) hw hc (by omega)
    simp only [read_ptp_vec, rbind, hcount, helems]
  · intro w c b p hw hc hcount h
    have helems := readCount_signed_eof (w := w) (c := c) (b := b)
      (p := p + 4) hw hc (by omega)
    simp only [read_ptp_vec, rbind, hcount, helems]
  · intro b p n tail hd hn h
    exact read_ptp_str_eof hd hn h
  · intro b p h
    simp only [read_ptp_str, rbind, read_u8_eof h]
  · intro α c f b p l q h
    exact readCount_ok_length h

/-- Witness for C9: concrete truncated buffers — a u32 read on two bytes,
an i16 read on one byte, a u32 array declaring two elements with four bytes
left, an i16 array declaring two elements with two bytes left, a string
declaring three characters with two bytes left, a string read on an empty
buffer, and an exact-length counted read. -/
theorem reads_eof_malformed_witness :
    readUnsignedLE 4 [1, 2] 0 =
      .error (.Malformed "Unexpected end of message") ∧
    readSignedLE 2 [1] 0 =
      .error (.Malformed "Unexpected end of message") ∧
    read_ptp_vec (readUnsignedLE 4) [2, 0, 0, 0, 1, 0, 0, 0] 0 =
      .error (.Malformed "Unexpected end of message") ∧
    read_ptp_vec (readSignedLE 2) [2, 0, 0, 0, 1, 0] 0 =
      .error (.Malformed "Unexpected end of message") ∧
    read_ptp_str [3, 65, 0] 0 =
      .error (.Malformed "Unexpected end of message") ∧
    read_ptp_str [] 0 =
      .error (.Malformed "Unexpected end of message") ∧
    ([5, 6] : List Nat).length = 2 := by
  have h := reads_eof_malformed
  refine ⟨?_, ?_, ?_, ?_, ?_, ?_, ?_⟩
  · exact h.1 4 [1, 2] 0 (by norm_num) (by norm_num)
  · exact h.2.1 2 [1] 0 (by norm_num) (by norm_num)
  · exact h.2.2.1 4 2 [2, 0, 0, 0, 1, 0, 0, 0] 0 (by norm_num) (by norm_num)
      (by rfl) (by norm_num)
  · exact h.2.2.2.1 2 2 [2, 0, 0, 0, 1, 0] 0 (by norm_num) (by norm_num)
      (by rfl) (by norm_num)
  · exact h.2.2.2.2.1 [3, 65, 0] 0 3 [65, 0] (by rfl) (by norm_num) (by norm_num)
  · exact h.2.2.2.2.2.1 [] 0 (by norm_num)
  · exact h.2.2.2.2.2.2 Nat 2 read_ptp_u8 [5, 6] 0 [5, 6] 2 (by rfl)

/-- **C6 (amended).**  For the whole-buffer decodes that call `expect_end`
(`StorageInfo` via `get_storage_info`, the u32-array parses of
`get_objecthandles` / `get_storageids`, and the u32 parse of
`get_numobjects`), a buffer one byte longer than an exact encoding fails
with `Malformed` from `expect_end`, and one byte shorter fails with a
`Malformed` error (via the EOF remap).  `DeviceInfo::decode` and
`ObjectInfo::decode` call no `expect_end`: one byte longer decodes
successfully to the same value (the trailing byte is silently ignored);
one byte shorter still fails with a `Malformed` error. -/
theorem dataset_decode_one_byte_off :
    (∀ (b : Bytes) (v : StorageInfo), 0 < b.length →
      StorageInfo.decode b 0 = .ok (v, b.length) →
      (∀ x, get_storage_info_parse (b ++ [x]) =
        .error (.Malformed (expectEndMsg (b.length + 1) b.length))) ∧
      (∃ m, get_storage_info_parse b.dropLast = .error (.Malformed m))) ∧
    (∀ (b : Bytes) (v : List Nat), 0 < b.length →
      read_ptp_u32_vec b 0 = .ok (v, b.length) →
      (∀ x, get_objecthandles_parse (b ++ [x]) =
        .error (.Malformed (expectEndMsg (b.length + 1) b.length))) ∧
      (∃ m, get_objecthandles_parse b.dropLast = .error (.Malformed m))) ∧
    (∀ (b : Bytes) (v : Nat), 0 < b.length →
      read_ptp_u32 b 0 = .ok (v, b.length) →
      (∀ x, get_numobjects_parse (b ++ [x]) =
        .error (.Malformed (expectEndMsg (b.length + 1) b.length))) ∧
      (∃ m, get_numobjects_parse b.dropLast = .error (.Malformed m))) ∧
    (∀ (b : Bytes) (v : DeviceInfo), 0 < b.length →
      DeviceInfo.decodeReader b 0 = .ok (v, b.length) →
      (∀ x, DeviceInfo.decode (b ++ [x]) = .ok v) ∧
      (∃ m, DeviceInfo.decode b.dropLast = .error (.Malformed m))) ∧
    (∀ (b : Bytes) (v : ObjectInfo), 0 < b.length →
      ObjectInfo.decodeReader b 0 = .ok (v, b.length) →
      (∀ x, ObjectInfo.decode (b ++ [x]) = .ok v) ∧
      (∃ m, ObjectInfo.decode b.dropLast = .error (.Malformed m))) := by
  have hps_u32vec : PrefixStable read_ptp_u32_vec :=
    ps_read_ptp_vec (ps_readUnsignedLE 4)
  have hmo_u32vec : MalformedOnly read_ptp_u32_vec :=
    mo_read_ptp_vec (mo_readUnsignedLE 4)
  refine ⟨?_, ?_, ?_, ?_, ?_⟩
  · intro b v hb hexact
    have hne : b ≠ [] := List.ne_nil_of_length_pos hb
    exact ⟨fun x => parseFull_too_long ps_StorageInfo_decode hexact x,
      parseFull_too_short ps_StorageInfo_decode mo_StorageInfo_decode hne hexact⟩
  · intro b v hb hexact
    have hne : b ≠ [] := List.ne_nil_of_length_pos hb
    exact ⟨fun x => parseFull_too_long hps_u32vec hexact x,
      parseFull_too_short hps_u32vec hmo_u32vec hne hexact⟩
  · intro b v hb hexact
    have hne : b ≠ [] := List.ne_nil_of_length_pos hb
    exact ⟨fun x => parseFull_too_long (ps_readUnsignedLE 4) hexact x,
      parseFull_too_short (ps_readUnsignedLE 4) (mo_readUnsignedLE 4) hne hexact⟩
  · intro b v hb hexact
    have hne : b ≠ [] := List.ne_nil_of_length_pos hb
    constructor
    · intro x
      have h := reader_too_long ps_DeviceInfo_decodeReader hexact x
      simp only [DeviceInfo.decode, h]
    · obtain ⟨m, hm⟩ :=
        reader_too_short ps_DeviceInfo_decodeReader mo_DeviceInfo_decodeReader
          hne hexact
      exact ⟨m, by simp only [DeviceInfo.decode, hm]⟩
  · intro b v hb hexact
    have hne : b ≠ [] := List.ne_nil_of_length_pos hb
    constructor
    · intro x
      have h := reader_too_long ps_ObjectInfo_decodeReader hexact x
      simp only [ObjectInfo.decode, h]
    · obtain ⟨m, hm⟩ :=
        reader_too_short ps_ObjectInfo_decodeReader mo_ObjectInfo_decodeReader
          hne hexact
      exact ⟨m, by simp only [ObjectInfo.decode, hm]⟩

/-- Witness for C6: the amended behaviour at concrete minimal encodings
(28 zero bytes for `StorageInfo`, an empty u32 array, one u32, 35 zero
bytes for `DeviceInfo`). -/
theorem dataset_decode_one_byte_off_witness :
    get_storage_info_parse (List.replicate 28 0 ++ [5]) =
      .error (.Malformed (expectEndMsg 29 28)) ∧
    (∃ m, get_storage_info_parse ((List.replicate 28 0).dropLast) =
      .error (.Malformed m)) ∧
    get_objecthandles_parse ([0, 0, 0, 0] ++ [5]) =
      .error (.Malformed (expectEndMsg 5 4)) ∧
    get_numobjects_parse ([7, 0, 0, 0] ++ [5]) =
      .error (.Malformed (expectEndMsg 5 4)) ∧
    DeviceInfo.decode (List.replicate 35 0 ++ [5]) =
      .ok ⟨0, 0, 0, "", 0, [], [], [], [], [], "", "", "", ""⟩ := by
  have h := dataset_decode_one_byte_off
  have h1 := h.1 (List.replicate 28 0) ⟨0, 0, 0, 0, 0, 0, "", ""⟩
    (by norm_num) (by rfl)
  have h2 := h.2.1 [0, 0, 0, 0] [] (by norm_num) (by rfl)
  have h3 := h.2.2.1 [7, 0, 0, 0] 7 (by norm_num) (by rfl)
  have h4 := h.2.2.2.1 (List.replicate 35 0)
    ⟨0, 0, 0, "", 0, [], [], [], [], [], "", "", "", ""⟩ (by norm_num) (by rfl)
  refine ⟨?_, ?_, ?_, ?_, h4.1 5⟩
  · have := h1.1 5
    simpa using this
  · exact h1.2
  · have := h2.1 5
    simpa using this
  · have := h3.1 5
    simpa using this

/-- Counterexample to C6 as stated: `DeviceInfo::decode` calls no
`expect_end`, so on a buffer one byte longer than the 35-byte exact
encoding of an all-zero `DeviceInfo` it succeeds instead of failing
`Malformed`. -/
theorem deviceinfo_trailing_byte_accepted :
    DeviceInfo.decodeReader (List.replicate 35 0) 0 =
      .ok (⟨0, 0, 0, "", 0, [], [], [], [], [], "", "", "", ""⟩, 35) ∧
    DeviceInfo.decode (List.replicate 36 0) =
      .ok ⟨0, 0, 0, "", 0, [], [], [], [], [], "", "", "", ""⟩ := by
  exact ⟨by rfl, by rfl⟩

/-- Witness for C7: the round trip evaluated at a concrete scalar and a
concrete array value. -/
theorem read_type_encode_roundtrip_witness :
    DataType.tagOf (.AUINT16 [1, 500]) = some 0x4004 ∧
    DataType.inRange (.AUINT16 [1, 500]) ∧
    DataType.read_type 0x4004 (DataType.encode (.AUINT16 [1, 500])) 0 =
      .ok (.AUINT16 [1, 500], (DataType.encode (.AUINT16 [1, 500])).length) ∧
    DataType.read_type 0x0003 (DataType.encode (.INT16 (-2))) 0 =
      .ok (.INT16 (-2), (DataType.encode (.INT16 (-2))).length) :=
  ⟨rfl, by decide,
    read_type_encode_roundtrip (.AUINT16 [1, 500]) 0x4004 rfl (by decide),
    read_type_encode_roundtrip (.INT16 (-2)) 0x0003 rfl (by decide)⟩

/-- Reading a u8 array whose u32 count prefix is 0 consumes the four count
bytes and yields the empty array, whatever bytes follow. -/
theorem read_ptp_u8_vec_zero_count (suf : List Nat) :
    read_ptp_u8_vec (leBytes 4 0 ++ suf) 0 = .ok ([], 4) := by
  have hfront := readUnsignedLE_front (w := 4) (x := 0) (by norm_num) suf
  show (rbind (readUnsignedLE 4) fun len => readCount len read_ptp_u8)
    (leBytes 4 0 ++ suf) 0 = .ok ([], 4)
  simp only [rbind, hfront, readCount, rpure]

theorem read_type_auint8_zero_count (suf : List Nat) :
    DataType.read_type 0x4002 (leBytes 4 0 ++ suf) 0 = .ok (.AUINT8 [], 4) :=
  rbind_map_exact (read_ptp_u8_vec_zero_count suf)

/-- Counterexample to C7 as stated: for the `AUINT8` value containing
`2^32` zero bytes — a legitimate `Vec<u8>` — the `val.len() as u32` count
prefix of `DataType::encode` wraps to 0, so `DataType::read_type` on the
encoding returns the empty array (after the four count bytes) instead of
the original value. -/
theorem read_type_array_count_wraps :
    DataType.tagOf (.AUINT8 (List.replicate (2 ^ 32) 0)) = some 0x4002 ∧
    DataType.read_type 0x4002
      (DataType.encode (.AUINT8 (List.replicate (2 ^ 32) 0))) 0 =
      .ok (.AUINT8 [], 4) ∧
    DataType.AUINT8 [] ≠ .AUINT8 (List.replicate (2 ^ 32) 0) := by
  refine ⟨rfl, ?_, ?_⟩
  · have henc : DataType.encode (.AUINT8 (List.replicate (2 ^ 32) 0)) =
        leBytes 4 0 ++ encodeEachU 1 (List.replicate (2 ^ 32) 0) := by
      show leBytes 4 ((List.replicate (2 ^ 32) (0 : Nat)).length % 2 ^ 32) ++
        encodeEachU 1 (List.replicate (2 ^ 32) 0) = _
      rw [List.length_replicate, Nat.mod_self]
    rw [henc]
    exact read_type_auint8_zero_count (encodeEachU 1 (List.replicate (2 ^ 32) 0))
  · intro hcontra
    have hlen := congrArg List.length (DataType.AUINT8.inj hcontra)
    rw [List.length_replicate, List.length_nil] at hlen
    exact absurd hlen (by norm_num)

end Ptp
